import Mathlib

/-!
Verification of the PC-ALE radio stack core against its specification.

Shallow embedding conventions:
* C++ unsigned integers become `Nat`; wrap-around is written with explicit
  `% 2^w` where the source can overflow.
* Bit packing of disjoint fields (`a | (b << k)` with non-overlapping bits)
  is written additively (`a + b * 2^k`); shifts and masks on a single field
  become `/ 2^k` and `% 2^k`.  Genuine XOR stays `Nat.xor` (`^^^`).
* `float` quantities (magnitudes, LQA scores) become `ℚ`: the code compares
  and clamps, never rounds, so order facts transfer verbatim.
* In-out reference parameters become explicit state passing.
-/

namespace ale

namespace Golay

/-- The initializer list of `GOLAY_ENCODE_TABLE` in src/src/fec/golay.cpp.
The C++ array is declared with 4096 entries but its brace initializer holds
only these 96 values (the source comment reads "Table continues for all 4096
entries - truncated here for brevity"); C++ value-initializes the remaining
4000 entries to 0. -/
def golayEncodeTableList : List Nat :=
  [0x000, 0x5C7, 0xB8D, 0xE4A, 0x2DE, 0x719, 0x953, 0xC94,
   0x5BC, 0x07B, 0xE31, 0xBF6, 0x762, 0x2A5, 0xCEF, 0x928,
   0xB78, 0xEBF, 0x0F5, 0x532, 0x9A6, 0xC61, 0x22B, 0x7EC,
   0xEC4, 0xB03, 0x549, 0x08E, 0xC1A, 0x9DD, 0x797, 0x250,
   0x337, 0x6F0, 0x8BA, 0xD7D, 0x1E9, 0x42E, 0xA64, 0xFA3,
   0x68B, 0x34C, 0xD06, 0x8C1, 0x455, 0x192, 0xFD8, 0xA1F,
   0x84F, 0xD88, 0x3C2, 0x605, 0xA91, 0xF56, 0x11C, 0x4DB,
   0xDF3, 0x834, 0x67E, 0x3B9, 0xF2D, 0xAEA, 0x4A0, 0x167,
   0x66D, 0x3AA, 0xDE0, 0x827, 0x4B3, 0x174, 0xF3E, 0xAF9,
   0x3D1, 0x616, 0x85C, 0xD9B, 0x10F, 0x4C8, 0xA82, 0xF45,
   0xD15, 0x8D2, 0x698, 0x35F, 0xFCB, 0xA0C, 0x446, 0x181,
   0x8A9, 0xD6E, 0x324, 0x6E3, 0xA77, 0xFB0, 0x1FA, 0x43D]

/-- `GOLAY_ENCODE_TABLE[i]` for `i < 4096` (entries past the initializer
list are zero). -/
def golayEncodeTable (i : Nat) : Nat :=
  golayEncodeTableList.getD i 0

/-- `Golay::encode`: codeword = `(info << 12) | GOLAY_ENCODE_TABLE[info & 0xFFF]`
(`info` is a `uint16_t`; the parity table value is below 2^12, so the
bit-or of the disjoint halves is addition). -/
def encode (info : Nat) : Nat :=
  (info % 65536) * 4096 + golayEncodeTable (info % 65536 % 4096)

/-- `Golay::compute_syndrome`: XOR of the received parity half with the
parity recomputed from the information half. -/
def compute_syndrome (codeword : Nat) : Nat :=
  let info := codeword / 4096 % 4096
  let received_parity := codeword % 4096
  let expected_parity := golayEncodeTable info
  received_parity ^^^ expected_parity

/-- The error-pattern enumeration in `Golay::init_syndrome_table`:
all weight-1, then weight-2, then weight-3 patterns over 24 bit positions,
in the source's nested-loop order. -/
def errorPatterns : List Nat :=
  ((List.range 24).map fun bit => 2 ^ bit)
  ++ ((List.range 24).flatMap fun bit1 =>
        ((List.range 24).filter fun bit2 => bit1 < bit2).map fun bit2 =>
          2 ^ bit1 + 2 ^ bit2)
  ++ ((List.range 24).flatMap fun bit1 =>
        ((List.range 24).filter fun bit2 => bit1 < bit2).flatMap fun bit2 =>
          ((List.range 24).filter fun bit3 => bit2 < bit3).map fun bit3 =>
            2 ^ bit1 + 2 ^ bit2 + 2 ^ bit3)

/-- One insertion step of `init_syndrome_table`: record the pattern for its
syndrome only when that slot is still vacant (first-discovered wins). -/
def insertPattern (t : Nat → Option Nat) (e : Nat) : Nat → Option Nat :=
  let s := compute_syndrome e
  match t s with
  | none => fun x => if x = s then some e else t x
  | some _ => t

/-- The syndrome table after `init_syndrome_table`: slot 0 holds pattern 0,
vacant slots are `none` (0xFFFFFFFF in the source), and the enumeration
fills the rest first-match. -/
def syndrome_table : Nat → Option Nat :=
  errorPatterns.foldl insertPattern (fun s => if s = 0 then some 0 else none)

/-- Bit-count loop at the end of `Golay::decode` (`while (temp) { bits +=
temp & 1; temp >>= 1; }`), rendered with a fuel argument so it is structural;
fuel `n` is ample since the loop runs at most `log2 n + 1` times. -/
def countBitsGo : Nat → Nat → Nat
  | 0, _ => 0
  | fuel + 1, n => if n = 0 then 0 else n % 2 + countBitsGo fuel (n / 2)

def countBits (n : Nat) : Nat := countBitsGo n n

/-- `Golay::decode`: returns (12-bit output info, error count); error count
0xFF signals an uncorrectable word. -/
def decode (codeword : Nat) : Nat × Nat :=
  let syndrome := compute_syndrome codeword
  if syndrome = 0 then
    (codeword / 4096 % 4096, 0)
  else
    match syndrome_table syndrome with
    | none => (codeword / 4096 % 4096, 0xFF)
    | some error_pattern =>
        let corrected := codeword ^^^ error_pattern
        (corrected / 4096 % 4096, countBits error_pattern)

end Golay

/-- Unsigned 32-bit subtraction `a - b` as the source's `uint32_t` arithmetic
computes it (used for all `now - then` elapsed-time computations). -/
def sub32 (a b : Nat) : Nat :=
  (a + (2 ^ 32 - b % 2 ^ 32)) % 2 ^ 32

/-- `ALEState` from include/ale_state_machine.h. -/
inductive ALEState
  | IDLE | SCANNING | CALLING | HANDSHAKE | LINKED | SOUNDING | ERROR
deriving DecidableEq, Repr

/-- `ALEEvent` from include/ale_state_machine.h. -/
inductive ALEEvent
  | START_SCAN | STOP_SCAN | CALL_REQUEST | CALL_DETECTED
  | HANDSHAKE_COMPLETE | LINK_TIMEOUT | LINK_TERMINATED
  | SOUNDING_REQUEST | SOUNDING_COMPLETE | ERROR_OCCURRED
deriving DecidableEq, Repr

/-- The mutable state of `ALEStateMachine` that the state/timeout logic
reads and writes.  Callback invocations, the address book, the per-channel
scan-list entries and the message assembler are external collaborators and
are not part of the transition state; `scan_list_len` stands for
`scan_config.scan_list.size()` and `dwell_time_ms`, `channel_index` for the
corresponding `scan_config` fields. -/
structure ALEStateMachine where
  current_state : ALEState
  previous_state : ALEState
  link_start_time_ms : Nat
  last_word_time_ms : Nat
  state_entry_time_ms : Nat
  last_scan_hop_time_ms : Nat
  current_time_ms : Nat
  channel_index : Nat
  scan_list_len : Nat
  dwell_time_ms : Nat
deriving DecidableEq, Repr

namespace ALEStateMachine

/-- `ALEStateMachine::set_channel` (channel timestamp update and channel
callback are external). -/
def set_channel (index : Nat) (m : ALEStateMachine) : ALEStateMachine :=
  if m.scan_list_len ≤ index then m
  else { m with channel_index := index }

/-- `ALEStateMachine::enter_state`.  SOUNDING's entry action only emits a
TIS word through the transmit callback, which does not touch modelled
state; LINKED's exit action only clears the active-call strings. -/
def enter_state (new_state : ALEState) (m : ALEStateMachine) : ALEStateMachine :=
  match new_state with
  | ALEState.SCANNING =>
      let m1 := { m with channel_index := 0,
                         last_scan_hop_time_ms := m.current_time_ms }
      if m1.scan_list_len ≠ 0 then set_channel 0 m1 else m1
  | ALEState.CALLING => { m with link_start_time_ms := m.current_time_ms }
  | ALEState.HANDSHAKE => { m with link_start_time_ms := m.current_time_ms }
  | ALEState.LINKED => { m with link_start_time_ms := m.current_time_ms,
                                last_word_time_ms := m.current_time_ms }
  | _ => m

/-- `ALEStateMachine::transition_to`: no-op when the target equals the
current state, else record previous state, switch, stamp the entry time and
run the entry action. -/
def transition_to (new_state : ALEState) (m : ALEStateMachine) :
    ALEStateMachine × Bool :=
  if m.current_state = new_state then (m, false)
  else
    let m1 := { m with previous_state := m.current_state,
                       current_state := new_state,
                       state_entry_time_ms := m.current_time_ms }
    (enter_state new_state m1, true)

/-- `ALEStateMachine::process_event`: the state-specific switch; in every
state except ERROR an unhandled event falls through to the trailing
`if (event == ERROR_OCCURRED) transition_to(ERROR)` check, while the ERROR
case returns from both of its branches and never reaches that check. -/
def process_event (m : ALEStateMachine) (event : ALEEvent) :
    ALEStateMachine × Bool :=
  let fallthrough :=
    if event = ALEEvent.ERROR_OCCURRED then transition_to ALEState.ERROR m
    else (m, false)
  match m.current_state with
  | ALEState.IDLE =>
      if event = ALEEvent.START_SCAN then transition_to ALEState.SCANNING m
      else if event = ALEEvent.CALL_REQUEST then transition_to ALEState.CALLING m
      else if event = ALEEvent.SOUNDING_REQUEST then transition_to ALEState.SOUNDING m
      else fallthrough
  | ALEState.SCANNING =>
      if event = ALEEvent.STOP_SCAN then transition_to ALEState.IDLE m
      else if event = ALEEvent.CALL_DETECTED then transition_to ALEState.HANDSHAKE m
      else if event = ALEEvent.CALL_REQUEST then transition_to ALEState.CALLING m
      else fallthrough
  | ALEState.CALLING =>
      if event = ALEEvent.HANDSHAKE_COMPLETE then transition_to ALEState.LINKED m
      else if event = ALEEvent.LINK_TIMEOUT then transition_to ALEState.IDLE m
      else fallthrough
  | ALEState.HANDSHAKE =>
      if event = ALEEvent.HANDSHAKE_COMPLETE then transition_to ALEState.LINKED m
      else if event = ALEEvent.LINK_TIMEOUT then transition_to ALEState.SCANNING m
      else fallthrough
  | ALEState.LINKED =>
      if event = ALEEvent.LINK_TERMINATED ∨ event = ALEEvent.LINK_TIMEOUT then
        transition_to ALEState.IDLE m
      else fallthrough
  | ALEState.SOUNDING =>
      if event = ALEEvent.SOUNDING_COMPLETE then transition_to ALEState.SCANNING m
      else fallthrough
  | ALEState.ERROR =>
      if event = ALEEvent.START_SCAN then transition_to ALEState.SCANNING m
      else transition_to ALEState.IDLE m

/-- `ALEStateMachine::check_link_timeout` with
`CALL_TIMEOUT_MS = 30000` and `LINK_TIMEOUT_MS = 120000`; note the strict
`elapsed > timeout_ms` comparison. -/
def check_link_timeout (m : ALEStateMachine) : Bool :=
  match m.current_state with
  | ALEState.CALLING => 30000 < sub32 m.current_time_ms m.state_entry_time_ms
  | ALEState.HANDSHAKE => 30000 < sub32 m.current_time_ms m.state_entry_time_ms
  | ALEState.LINKED => 120000 < sub32 m.current_time_ms m.state_entry_time_ms
  | _ => false

/-- `ALEStateMachine::check_scan_dwell_timeout` (non-strict `>=`). -/
def check_scan_dwell_timeout (m : ALEStateMachine) : Bool :=
  if m.current_state ≠ ALEState.SCANNING then false
  else m.dwell_time_ms ≤ sub32 m.current_time_ms m.last_scan_hop_time_ms

/-- `ALEStateMachine::hop_to_next_channel`. -/
def hop_to_next_channel (m : ALEStateMachine) : ALEStateMachine :=
  if m.scan_list_len = 0 then m
  else
    let idx := (m.channel_index + 1) % m.scan_list_len
    let m1 := set_channel idx { m with channel_index := idx }
    { m1 with last_scan_hop_time_ms := m1.current_time_ms }

/-- `ALEStateMachine::handle_scanning`. -/
def handle_scanning (m : ALEStateMachine) : ALEStateMachine :=
  if check_scan_dwell_timeout m then hop_to_next_channel m else m

/-- `ALEStateMachine::handle_sounding` (`WORD_DURATION_MS = 392`, strict). -/
def handle_sounding (m : ALEStateMachine) : ALEStateMachine :=
  if 392 < sub32 m.current_time_ms m.state_entry_time_ms then
    (process_event m ALEEvent.SOUNDING_COMPLETE).1
  else m

/-- `ALEStateMachine::update`: stamp the clock, poll the link timeout, then
run the per-state periodic handler (`handle_calling`, `handle_handshake`
and `handle_linked` are empty in the source). -/
def update (m : ALEStateMachine) (current_time_ms : Nat) : ALEStateMachine :=
  let m0 := { m with current_time_ms := current_time_ms % 2 ^ 32 }
  let m1 :=
    if check_link_timeout m0 then (process_event m0 ALEEvent.LINK_TIMEOUT).1
    else m0
  match m1.current_state with
  | ALEState.SCANNING => handle_scanning m1
  | ALEState.SOUNDING => handle_sounding m1
  | _ => m1

end ALEStateMachine

namespace SymbolDecoder

/-- The tone bins scanned by `SymbolDecoder::detect_symbol`
(`for (bin = 6; bin <= 13; ++bin)`). -/
def toneBins : List Nat := [6, 7, 8, 9, 10, 11, 12, 13]

/-- The loop body of `detect_symbol`: update `(peak_mag, peak_bin)` when
`bin < FFT_SIZE && magnitudes[bin] > peak_mag`. -/
def scanStep (magnitudes : Nat → ℚ) (acc : ℚ × Nat) (bin : Nat) : ℚ × Nat :=
  if bin < 64 ∧ acc.1 < magnitudes bin then (magnitudes bin, bin) else acc

/-- `SymbolDecoder::detect_symbol`: peak over bins 6..13 starting from
`peak_mag = -1e6f`, `peak_bin = 0xFF`; returns `peak_bin - 6`, or 0xFF when
no bin ever compared above the running peak.  Magnitudes are `float` in the
source, modelled as `ℚ`. -/
def detect_symbol (magnitudes : Nat → ℚ) : Nat :=
  let r := toneBins.foldl (scanStep magnitudes) (-1000000, 255)
  if r.2 = 255 then 255 else r.2 - 6

end SymbolDecoder

namespace Golay

lemma golayEncodeTable_lt (i : Nat) : golayEncodeTable i < 4096 := by
  have h : golayEncodeTableList.all (fun v => decide (v < 4096)) = true := by decide
  unfold golayEncodeTable
  by_cases hi : i < golayEncodeTableList.length
  · rw [List.getD_eq_getElem _ _ hi]
    have hmem := List.getElem_mem hi
    simpa using List.all_eq_true.mp h _ hmem
  · rw [List.getD_eq_default _ _ (Nat.le_of_not_lt hi)]
    omega

/-- `insertPattern` never overwrites an occupied slot. -/
lemma insertPattern_preserves (t : Nat → Option Nat) (e s v : Nat)
    (h : t s = some v) : insertPattern t e s = some v := by
  unfold insertPattern
  cases ht : t (compute_syndrome e) with
  | none =>
      simp only [ht]
      by_cases hs : s = compute_syndrome e
      · subst hs; rw [h] at ht; cases ht
      · simp [hs, h]
  | some w => simpa [ht]

lemma foldl_insertPattern_preserves (l : List Nat) (t : Nat → Option Nat)
    (s v : Nat) (h : t s = some v) :
    (l.foldl insertPattern t) s = some v := by
  induction l generalizing t with
  | nil => simpa
  | cons e rest ih => exact ih _ (insertPattern_preserves t e s v h)

/-- The syndrome table always has an entry at syndrome 0 (the zero pattern,
written before the enumeration loops). -/
lemma syndrome_table_zero : syndrome_table 0 = some 0 := by
  unfold syndrome_table
  exact foldl_insertPattern_preserves _ _ 0 0 (by simp)

/-- A word with zero syndrome decodes on the early-return path: information
half extracted unchanged, zero reported errors. -/
lemma decode_syndrome_zero (cw : Nat) (h : compute_syndrome cw = 0) :
    decode cw = (cw / 4096 % 4096, 0) := by
  unfold decode
  rw [h]
  rfl

end Golay

end ale

/-- C6: For every 12-bit information word `info`, `Golay::decode` applied to
`Golay::encode(info)` returns `info` with an error count of 0.  (Encoder and
syndrome computation read the same parity table, so the syndrome of a fresh
codeword is always zero, whatever the table holds.) -/
theorem c6_golay_encode_decode_roundtrip (info : Nat) (h : info < 4096) :
    ale.Golay.decode (ale.Golay.encode info) = (info, 0) := by
  have hp := ale.Golay.golayEncodeTable_lt info
  have h2 : info % 65536 = info := by omega
  have henc : ale.Golay.encode info = info * 4096 + ale.Golay.golayEncodeTable info := by
    unfold ale.Golay.encode
    rw [h2, Nat.mod_eq_of_lt h]
  set p := ale.Golay.golayEncodeTable info with hpdef
  have hdiv : (info * 4096 + p) / 4096 % 4096 = info := by omega
  have hmod : (info * 4096 + p) % 4096 = p := by omega
  have hsyn : ale.Golay.compute_syndrome (info * 4096 + p) = 0 := by
    show (info * 4096 + p) % 4096 ^^^
        ale.Golay.golayEncodeTable ((info * 4096 + p) / 4096 % 4096) = 0
    rw [hmod, hdiv, ← hpdef, Nat.xor_self]
  rw [henc, ale.Golay.decode_syndrome_zero _ hsyn, hdiv]

/-- C6 witness: the round-trip evaluated at the concrete info word 42. -/
theorem c6_witness : ale.Golay.decode (ale.Golay.encode 42) = (42, 0) :=
  c6_golay_encode_decode_roundtrip 42 (by decide)

/-- C1 (code bug): the claim is the intended Golay behaviour, but the
source's `GOLAY_ENCODE_TABLE` initializer is truncated to 96 of 4096 entries
(the in-code comment says so), so the code violates it.  Failing input:
codeword `c = Golay::encode(96)` and error pattern `e = 1 << 12` of Hamming
weight 1.  Entries 96 and 97 of the table are both (zero-filled) 0, so
`c XOR e` has syndrome 0 — a syndrome the table maps (to the zero pattern) —
yet `Golay::decode(c XOR e)` returns info 97 with 0 errors instead of the
claimed info 96 with 1 error. -/
theorem c1_golay_truncated_table_bug :
    ale.Golay.compute_syndrome (ale.Golay.encode 96 ^^^ 2 ^ 12) = 0 ∧
    ale.Golay.syndrome_table
      (ale.Golay.compute_syndrome (ale.Golay.encode 96 ^^^ 2 ^ 12)) = some 0 ∧
    ale.Golay.decode (ale.Golay.encode 96 ^^^ 2 ^ 12) = (97, 0) ∧
    ale.Golay.countBits (2 ^ 12) = 1 ∧ 97 ≠ 96 := by
  have hsyn : ale.Golay.compute_syndrome (ale.Golay.encode 96 ^^^ 2 ^ 12) = 0 := by
    decide
  refine ⟨hsyn, ?_, ?_, by decide, by decide⟩
  · rw [hsyn]; exact ale.Golay.syndrome_table_zero
  · rw [ale.Golay.decode_syndrome_zero _ hsyn]
    decide

namespace ale

lemma sub32_eq (a b : Nat) (hba : b ≤ a) (ha : a < 2 ^ 32) :
    sub32 a b = a - b := by
  unfold sub32
  have hb : b % 2 ^ 32 = b := Nat.mod_eq_of_lt (lt_of_le_of_lt hba ha)
  rw [hb]
  omega

namespace ALEStateMachine

lemma set_channel_state (i : Nat) (m : ALEStateMachine) :
    (set_channel i m).current_state = m.current_state := by
  unfold set_channel; split <;> rfl

lemma hop_state (m : ALEStateMachine) :
    (hop_to_next_channel m).current_state = m.current_state := by
  simp [hop_to_next_channel, set_channel, apply_ite]

lemma handle_scanning_state (m : ALEStateMachine) :
    (handle_scanning m).current_state = m.current_state := by
  unfold handle_scanning
  split
  · exact hop_state m
  · rfl

end ALEStateMachine

end ale

/-- C4 counterexample: in the ERROR state, `process_event(ERROR_OCCURRED)`
transitions to IDLE, not to ERROR — the ERROR case of the switch returns
`transition_to(IDLE)` for every event other than START_SCAN, and the
trailing ERROR_OCCURRED check is never reached from it. -/
theorem c4_counterexample :
    (ale.ALEStateMachine.process_event
        ⟨ale.ALEState.ERROR, ale.ALEState.IDLE, 0, 0, 0, 0, 0, 0, 0, 200⟩
        ale.ALEEvent.ERROR_OCCURRED).1.current_state = ale.ALEState.IDLE ∧
    ale.ALEState.IDLE ≠ ale.ALEState.ERROR := by
  decide

/-- C4 (amended): from every state other than ERROR, processing an
ERROR_OCCURRED event transitions the machine to the ERROR state in one
transition; from ERROR itself the event is treated like any other
non-START_SCAN event and transitions the machine to IDLE. -/
theorem c4_error_event_amended (m : ale.ALEStateMachine)
    (h : m.current_state ≠ ale.ALEState.ERROR) :
    (ale.ALEStateMachine.process_event m ale.ALEEvent.ERROR_OCCURRED).1.current_state
      = ale.ALEState.ERROR := by
  rcases m with ⟨s, ps, a, b, c, d, e, f, g, w⟩
  cases s <;>
    simp_all [ale.ALEStateMachine.process_event,
      ale.ALEStateMachine.transition_to, ale.ALEStateMachine.enter_state]

/-- C4 witness: the amended theorem applied to a concrete IDLE machine. -/
theorem c4_witness :
    (ale.ALEStateMachine.process_event
        ⟨ale.ALEState.IDLE, ale.ALEState.IDLE, 0, 0, 0, 0, 0, 0, 0, 200⟩
        ale.ALEEvent.ERROR_OCCURRED).1.current_state = ale.ALEState.ERROR :=
  c4_error_event_amended _ (by decide)

/-- C8 counterexample: with the machine in CALLING since time 0, calling
`update(30000)` — elapsed exactly equal to the 30000 ms timeout — fires no
LINK_TIMEOUT because `check_link_timeout` uses the strict comparison
`elapsed > timeout_ms`; the machine stays in CALLING instead of moving to
IDLE as the claim's "including exact equality" requires. -/
theorem c8_counterexample :
    (ale.ALEStateMachine.update
        ⟨ale.ALEState.CALLING, ale.ALEState.IDLE, 0, 0, 0, 0, 0, 0, 0, 200⟩
        30000).current_state = ale.ALEState.CALLING ∧
    ale.ALEState.CALLING ≠ ale.ALEState.IDLE := by
  decide

/-- C8 (amended): whenever `update(now)` is called while the machine is in
CALLING or HANDSHAKE and `now − state_entry` is STRICTLY greater than
30000 ms, a LINK_TIMEOUT event fires, taking CALLING to IDLE and HANDSHAKE
to SCANNING (at exact equality nothing fires). -/
theorem c8_link_timeout_amended (m : ale.ALEStateMachine) (now : Nat)
    (hs : m.current_state = ale.ALEState.CALLING ∨
          m.current_state = ale.ALEState.HANDSHAKE)
    (h1 : m.state_entry_time_ms ≤ now) (h2 : now < 2 ^ 32)
    (h3 : 30000 < now - m.state_entry_time_ms) :
    (ale.ALEStateMachine.update m now).current_state =
      (if m.current_state = ale.ALEState.CALLING then ale.ALEState.IDLE
       else ale.ALEState.SCANNING) := by
  have hnow : now % 4294967296 = now := Nat.mod_eq_of_lt (by simpa using h2)
  have hsub : ale.sub32 now m.state_entry_time_ms = now - m.state_entry_time_ms :=
    ale.sub32_eq now m.state_entry_time_ms h1 h2
  rcases hs with h | h
  · simp [ale.ALEStateMachine.update, ale.ALEStateMachine.check_link_timeout,
      h, hnow, hsub, h3, ale.ALEStateMachine.process_event,
      ale.ALEStateMachine.transition_to, ale.ALEStateMachine.enter_state]
  · simp [ale.ALEStateMachine.update, ale.ALEStateMachine.check_link_timeout,
      h, hnow, hsub, h3, ale.ALEStateMachine.process_event,
      ale.ALEStateMachine.transition_to, ale.ALEStateMachine.enter_state,
      ale.ALEStateMachine.handle_scanning, ale.ALEStateMachine.check_scan_dwell_timeout,
      ale.ALEStateMachine.hop_to_next_channel, ale.ALEStateMachine.set_channel,
      apply_ite]

/-- C8 witness: the amended theorem applied at `now = 30001`, one
millisecond past the boundary, from CALLING entered at time 0. -/
theorem c8_witness :
    (ale.ALEStateMachine.update
        ⟨ale.ALEState.CALLING, ale.ALEState.IDLE, 0, 0, 0, 0, 0, 0, 0, 200⟩
        30001).current_state = ale.ALEState.IDLE := by
  have h := c8_link_timeout_amended
    ⟨ale.ALEState.CALLING, ale.ALEState.IDLE, 0, 0, 0, 0, 0, 0, 0, 200⟩
    30001 (Or.inl rfl) (by decide) (by decide) (by decide)
  simpa using h

namespace ale.SymbolDecoder

/-- Fold analysis of the `detect_symbol` scan loop: either no bin ever beat
the accumulator (result unchanged, every scanned magnitude at or below the
starting peak), or the result records a scanned bin holding the running
maximum. -/
lemma foldl_scanStep_spec (m : Nat → ℚ) (l : List Nat) (acc : ℚ × Nat)
    (hl : ∀ b ∈ l, b < 64) :
    (l.foldl (scanStep m) acc = acc ∧ ∀ b ∈ l, m b ≤ acc.1) ∨
    ((l.foldl (scanStep m) acc).2 ∈ l ∧
     (l.foldl (scanStep m) acc).1 = m (l.foldl (scanStep m) acc).2 ∧
     acc.1 < (l.foldl (scanStep m) acc).1 ∧
     ∀ b ∈ l, m b ≤ (l.foldl (scanStep m) acc).1) := by
  induction l generalizing acc with
  | nil => exact Or.inl ⟨rfl, by simp⟩
  | cons b rest ih =>
      have hb : b < 64 := hl b (List.mem_cons_self b rest)
      have hrest : ∀ c ∈ rest, c < 64 := fun c hc => hl c (List.mem_cons_of_mem b hc)
      by_cases hcond : acc.1 < m b
      · have hstep : scanStep m acc b = (m b, b) := by
          unfold scanStep
          rw [if_pos ⟨hb, hcond⟩]
        rw [List.foldl_cons, hstep]
        rcases ih (m b, b) hrest with ⟨heq, hle⟩ | ⟨hmem, hval, hlt, hle⟩
        · rw [heq]
          refine Or.inr ⟨List.mem_cons_self b rest, rfl, hcond, fun c hc => ?_⟩
          rcases List.mem_cons.mp hc with h | h
          · subst h; exact le_refl _
          · exact hle c h
        · refine Or.inr ⟨List.mem_cons_of_mem b hmem, hval,
            lt_trans hcond hlt, fun c hc => ?_⟩
          rcases List.mem_cons.mp hc with h | h
          · subst h; exact le_of_lt hlt
          · exact hle c h
      · have hstep : scanStep m acc b = acc := by
          unfold scanStep
          rw [if_neg (fun hc => hcond hc.2)]
        rw [List.foldl_cons, hstep]
        rcases ih acc hrest with ⟨heq, hle⟩ | ⟨hmem, hval, hlt, hle⟩
        · rw [heq]
          refine Or.inl ⟨rfl, fun c hc => ?_⟩
          rcases List.mem_cons.mp hc with h | h
          · subst h; exact le_of_not_lt hcond
          · exact hle c h
        · refine Or.inr ⟨List.mem_cons_of_mem b hmem, hval, hlt, fun c hc => ?_⟩
          rcases List.mem_cons.mp hc with h | h
          · subst h; exact le_of_lt (lt_of_le_of_lt (le_of_not_lt hcond) hlt)
          · exact hle c h

end ale.SymbolDecoder

/-- C5 counterexample: with all 64 magnitudes equal (to 0), no bin strictly
exceeds the others, yet `detect_symbol` returns symbol 0 (bin 6 wins the
`>` comparison against the initial `-1e6` peak and ties never update), not
the 0xFF failure marker the claim requires. -/
theorem c5_counterexample :
    ale.SymbolDecoder.detect_symbol (fun _ => 0) = 0 ∧ (0 : Nat) ≠ 255 := by
  constructor
  · norm_num [ale.SymbolDecoder.detect_symbol, ale.SymbolDecoder.toneBins,
      ale.SymbolDecoder.scanStep, List.foldl]
  · decide

/-- C5 (amended): `detect_symbol` scans bins 6 through 13; whenever at
least one scanned magnitude exceeds the initial peak −10^6 (so for every
vector of non-negative magnitudes, all-equal included), it returns
`peak_bin − 6`, a value in 0..7, where `peak_bin` is a scanned bin
attaining the maximum magnitude over bins 6..13 — an all-equal vector
yields symbol 0, the lowest tied bin, rather than a failure marker; the
0xFF failure marker is returned exactly when every scanned magnitude is at
or below −10^6. -/
theorem c5_detect_symbol_amended (m : Nat → ℚ) :
    ((∃ b ∈ ale.SymbolDecoder.toneBins, -1000000 < m b) →
      ale.SymbolDecoder.detect_symbol m < 8 ∧
      (ale.SymbolDecoder.detect_symbol m + 6) ∈ ale.SymbolDecoder.toneBins ∧
      ∀ b ∈ ale.SymbolDecoder.toneBins,
        m b ≤ m (ale.SymbolDecoder.detect_symbol m + 6)) ∧
    ((∀ b ∈ ale.SymbolDecoder.toneBins, m b ≤ -1000000) →
      ale.SymbolDecoder.detect_symbol m = 255) ∧
    (∀ v : ℚ, -1000000 < v →
      ale.SymbolDecoder.detect_symbol (fun _ => v) = 0) := by
  have hl : ∀ b ∈ ale.SymbolDecoder.toneBins, b < 64 := by decide
  refine ⟨?_, ?_, ?_⟩
  · rintro ⟨b, hb, hgt⟩
    rcases ale.SymbolDecoder.foldl_scanStep_spec m ale.SymbolDecoder.toneBins
        (-1000000, 255) hl with ⟨_, hle⟩ | ⟨hmem, hval, _, hle⟩
    · exact absurd (hle b hb) (not_le.mpr hgt)
    · set r := ale.SymbolDecoder.toneBins.foldl
        (ale.SymbolDecoder.scanStep m) (-1000000, 255) with hr
      have hm' : r.2 ∈ [6, 7, 8, 9, 10, 11, 12, 13] := hmem
      have hr2 : 6 ≤ r.2 ∧ r.2 ≤ 13 := by
        simp only [List.mem_cons, List.not_mem_nil, or_false] at hm'
        rcases hm' with h | h | h | h | h | h | h | h <;> omega
      have hne : r.2 ≠ 255 := by omega
      have hdet : ale.SymbolDecoder.detect_symbol m = r.2 - 6 := by
        unfold ale.SymbolDecoder.detect_symbol
        rw [← hr, if_neg hne]
      have hplus : ale.SymbolDecoder.detect_symbol m + 6 = r.2 := by omega
      refine ⟨by omega, ?_, ?_⟩
      · rw [hplus]; exact hmem
      · intro c hc
        rw [hplus, ← hval]
        exact hle c hc
  · intro hall
    rcases ale.SymbolDecoder.foldl_scanStep_spec m ale.SymbolDecoder.toneBins
        (-1000000, 255) hl with ⟨heq, _⟩ | ⟨hmem, hval, hlt, _⟩
    · unfold ale.SymbolDecoder.detect_symbol
      rw [heq]
      rfl
    · exfalso
      have h1 : m ((ale.SymbolDecoder.toneBins.foldl
          (ale.SymbolDecoder.scanStep m) (-1000000, 255)).2) ≤ -1000000 :=
        hall _ hmem
      rw [hval] at hlt
      exact absurd hlt (not_lt.mpr h1)
  · intro v hv
    norm_num [ale.SymbolDecoder.detect_symbol, ale.SymbolDecoder.toneBins,
      ale.SymbolDecoder.scanStep, List.foldl, hv, lt_irrefl]

/-- C5 witness: the amended theorem applied to the all-zero magnitude
vector (non-negative, all-equal): some bin beats −10^6, the returned symbol
is below 8 and names a maximal tone bin. -/
theorem c5_witness :
    ale.SymbolDecoder.detect_symbol (fun _ => (0 : ℚ)) < 8 ∧
    (ale.SymbolDecoder.detect_symbol (fun _ => (0 : ℚ)) + 6)
      ∈ ale.SymbolDecoder.toneBins ∧
    ∀ b ∈ ale.SymbolDecoder.toneBins,
      (fun _ => (0 : ℚ)) b ≤
        (fun _ => (0 : ℚ)) (ale.SymbolDecoder.detect_symbol (fun _ => (0 : ℚ)) + 6) :=
  (c5_detect_symbol_amended (fun _ => 0)).1
    ⟨6, by norm_num [ale.SymbolDecoder.toneBins]⟩

namespace ale

/-- `LQAConfig` from include/ale/lqa_database.h (floats as `ℚ`; the
quality-threshold fields are not read by the modelled operations). -/
structure LQAConfig where
  snr_weight : ℚ
  success_weight : ℚ
  recency_weight : ℚ
  max_age_ms : Nat
  history_depth : Nat
  time_decay_factor : ℚ

/-- `LQAEntry` from include/ale/lqa_database.h.  The station string is a
byte list; `fec_errors` and `total_words` are C `int`s. -/
structure LQAEntry where
  frequency_hz : Nat
  remote_station : List Nat
  snr_db : ℚ
  ber : ℚ
  sinad_db : ℚ
  fec_errors : Int
  total_words : Int
  multipath_score : ℚ
  noise_floor_dbm : ℚ
  last_sounding_ms : Nat
  last_contact_ms : Nat
  score : ℚ
  sample_count : Nat

/-- The `LQAEntry` default constructor. -/
def LQAEntry.default : LQAEntry :=
  { frequency_hz := 0, remote_station := [], snr_db := 0, ber := 0,
    sinad_db := 0, fec_errors := 0, total_words := 0, multipath_score := 0,
    noise_floor_dbm := -120, last_sounding_ms := 0, last_contact_ms := 0,
    score := 0, sample_count := 0 }

/-- `LQADatabase`: the entry map keyed by `(frequency_hz, remote_station)`,
modelled as an association list. -/
structure LQADatabase where
  config : LQAConfig
  entries : List ((Nat × List Nat) × LQAEntry)

namespace LQADatabase

/-- `LQADatabase::time_weighted_average`:
`(old * decay * n + new) / (n * decay + 1)`. -/
def time_weighted_average (config : LQAConfig) (old_value new_value : ℚ)
    (old_samples : Nat) : ℚ :=
  let decay := config.time_decay_factor
  let weighted_old := old_value * decay * (old_samples : ℚ)
  let total_weight := (old_samples : ℚ) * decay + 1
  (weighted_old + new_value) / total_weight

/-- `LQADatabase::compute_score`.  `sys_now` stands for the
`get_current_time_ms()` system-clock read used by the recency component
(modelled as a parameter); the `age / max_age` float division is `ℚ`
division, which differs from IEEE only when `max_age_ms = 0`, and the final
clamp bounds the result identically in either case. -/
def compute_score (config : LQAConfig) (sys_now : Nat) (entry : LQAEntry) : ℚ :=
  let snr_component := min 31 (max 0 entry.snr_db)
  let score1 := snr_component * config.snr_weight
  let success_rate : ℚ :=
    if 0 < entry.total_words then (1 - min 1 entry.ber) * 31 else 0
  let score2 := score1 + success_rate * config.success_weight
  let last_activity := max entry.last_contact_ms entry.last_sounding_ms
  let score3 :=
    if 0 < last_activity then
      let age_ms := sub32 sys_now last_activity
      let age_factor := max 0 (min 1 (1 - (age_ms : ℚ) / (config.max_age_ms : ℚ)))
      score2 + age_factor * 31 * config.recency_weight
    else score2
  min 31 (max 0 score3)

/-- `LQADatabase::update_entry`.  `sys_now` models `get_current_time_ms()`
(used when `timestamp_ms == 0` and inside `compute_score`); the `std::map`
lookup/insert becomes association-list find/replace/append. -/
def update_entry (db : LQADatabase) (frequency_hz : Nat)
    (remote_station : List Nat) (snr_db ber : ℚ) (fec_errors total_words : Int)
    (timestamp_ms sys_now : Nat) : LQADatabase :=
  let key := (frequency_hz, remote_station)
  let now := if timestamp_ms = 0 then sys_now else timestamp_ms
  match db.entries.find? (fun p => p.1 = key) with
  | some found =>
      let entry := found.2
      let old_samples := entry.sample_count
      let e1 := { entry with
        snr_db := time_weighted_average db.config entry.snr_db snr_db old_samples,
        ber := time_weighted_average db.config entry.ber ber old_samples,
        fec_errors := entry.fec_errors + fec_errors,
        total_words := entry.total_words + total_words,
        sample_count := entry.sample_count + 1 }
      let e2 := if remote_station ≠ [] then { e1 with last_contact_ms := now }
                else { e1 with last_sounding_ms := now }
      let e3 := { e2 with score := compute_score db.config sys_now e2 }
      { db with entries := db.entries.map (fun p => if p.1 = key then (key, e3) else p) }
  | none =>
      let e0 := { LQAEntry.default with
        frequency_hz := frequency_hz, remote_station := remote_station,
        snr_db := snr_db, ber := ber, fec_errors := fec_errors,
        total_words := total_words, sample_count := 1 }
      let e1 := if remote_station ≠ [] then { e0 with last_contact_ms := now }
                else { e0 with last_sounding_ms := now }
      let e2 := { e1 with score := compute_score db.config sys_now e1 }
      { db with entries := db.entries ++ [(key, e2)] }

/-- `LQADatabase::update_entry_extended`. -/
def update_entry_extended (db : LQADatabase) (frequency_hz : Nat)
    (remote_station : List Nat) (snr_db ber sinad_db multipath_score
    noise_floor_dbm : ℚ) (fec_errors total_words : Int)
    (timestamp_ms sys_now : Nat) : LQADatabase :=
  let key := (frequency_hz, remote_station)
  let now := if timestamp_ms = 0 then sys_now else timestamp_ms
  match db.entries.find? (fun p => p.1 = key) with
  | some found =>
      let entry := found.2
      let old_samples := entry.sample_count
      let e1 := { entry with
        snr_db := time_weighted_average db.config entry.snr_db snr_db old_samples,
        ber := time_weighted_average db.config entry.ber ber old_samples,
        sinad_db := time_weighted_average db.config entry.sinad_db sinad_db old_samples,
        multipath_score :=
          time_weighted_average db.config entry.multipath_score multipath_score old_samples,
        noise_floor_dbm :=
          time_weighted_average db.config entry.noise_floor_dbm noise_floor_dbm old_samples,
        fec_errors := entry.fec_errors + fec_errors,
        total_words := entry.total_words + total_words,
        sample_count := entry.sample_count + 1 }
      let e2 := if remote_station ≠ [] then { e1 with last_contact_ms := now }
                else { e1 with last_sounding_ms := now }
      let e3 := { e2 with score := compute_score db.config sys_now e2 }
      { db with entries := db.entries.map (fun p => if p.1 = key then (key, e3) else p) }
  | none =>
      let e0 := { LQAEntry.default with
        frequency_hz := frequency_hz, remote_station := remote_station,
        snr_db := snr_db, ber := ber, sinad_db := sinad_db,
        multipath_score := multipath_score, noise_floor_dbm := noise_floor_dbm,
        fec_errors := fec_errors, total_words := total_words, sample_count := 1 }
      let e1 := if remote_station ≠ [] then { e0 with last_contact_ms := now }
                else { e0 with last_sounding_ms := now }
      let e2 := { e1 with score := compute_score db.config sys_now e1 }
      { db with entries := db.entries ++ [(key, e2)] }

end LQADatabase

end ale

namespace ale.LQADatabase

/-- The final clamp of `compute_score` bounds every computed score to
[0, 31], for arbitrary weights and inputs. -/
lemma compute_score_bounds (config : ale.LQAConfig) (sys_now : Nat)
    (entry : ale.LQAEntry) :
    0 ≤ compute_score config sys_now entry ∧
    compute_score config sys_now entry ≤ 31 := by
  unfold compute_score
  constructor
  · exact le_min (by norm_num) (le_max_left 0 _)
  · exact min_le_left _ _

end ale.LQADatabase

/-- C7: after every call to `update_entry` or `update_entry_extended`, with
any weights configured, the score of every entry stored in the LQA database
lies in [0, 31]: updated or inserted entries get a freshly clamped
`compute_score`, and untouched entries keep scores that were clamped when
they were stored (the database invariant). -/
theorem c7_lqa_score_bounds (db : ale.LQADatabase)
    (frequency_hz : Nat) (remote_station : List Nat)
    (snr_db ber sinad_db multipath_score noise_floor_dbm : ℚ)
    (fec_errors total_words : Int) (timestamp_ms sys_now : Nat)
    (hinv : ∀ p ∈ db.entries, 0 ≤ p.2.score ∧ p.2.score ≤ 31) :
    (∀ p ∈ (ale.LQADatabase.update_entry db frequency_hz remote_station
        snr_db ber fec_errors total_words timestamp_ms sys_now).entries,
      0 ≤ p.2.score ∧ p.2.score ≤ 31) ∧
    (∀ p ∈ (ale.LQADatabase.update_entry_extended db frequency_hz
        remote_station snr_db ber sinad_db multipath_score noise_floor_dbm
        fec_errors total_words timestamp_ms sys_now).entries,
      0 ≤ p.2.score ∧ p.2.score ≤ 31) := by
  constructor
  · intro p hp
    unfold ale.LQADatabase.update_entry at hp
    simp only [] at hp
    rcases hfind : db.entries.find?
        (fun q => q.1 = (frequency_hz, remote_station)) with _ | found
    · rw [hfind] at hp
      simp only [List.mem_append, List.mem_singleton] at hp
      rcases hp with hp | hp
      · exact hinv p hp
      · subst hp
        exact ale.LQADatabase.compute_score_bounds _ _ _
    · rw [hfind] at hp
      simp only [List.mem_map] at hp
      rcases hp with ⟨q, hq, hpq⟩
      by_cases hkey : q.1 = (frequency_hz, remote_station)
      · rw [if_pos hkey] at hpq
        subst hpq
        exact ale.LQADatabase.compute_score_bounds _ _ _
      · rw [if_neg hkey] at hpq
        subst hpq
        exact hinv q hq
  · intro p hp
    unfold ale.LQADatabase.update_entry_extended at hp
    simp only [] at hp
    rcases hfind : db.entries.find?
        (fun q => q.1 = (frequency_hz, remote_station)) with _ | found
    · rw [hfind] at hp
      simp only [List.mem_append, List.mem_singleton] at hp
      rcases hp with hp | hp
      · exact hinv p hp
      · subst hp
        exact ale.LQADatabase.compute_score_bounds _ _ _
    · rw [hfind] at hp
      simp only [List.mem_map] at hp
      rcases hp with ⟨q, hq, hpq⟩
      by_cases hkey : q.1 = (frequency_hz, remote_station)
      · rw [if_pos hkey] at hpq
        subst hpq
        exact ale.LQADatabase.compute_score_bounds _ _ _
      · rw [if_neg hkey] at hpq
        subst hpq
        exact hinv q hq

/-- C7 witness: updating an empty database (default config weights) with a
concrete sample leaves every stored score within [0, 31]. -/
theorem c7_witness :
    ((ale.LQADatabase.update_entry
        ⟨⟨1/2, 3/10, 1/5, 3600000, 100, 9/10⟩, []⟩
        14000000 [65, 66, 67] 20 (1/100) 2 10 5000 6000).entries.all
      (fun p => decide (0 ≤ p.2.score) && decide (p.2.score ≤ 31))) = true := by
  have h := (c7_lqa_score_bounds ⟨⟨1/2, 3/10, 1/5, 3600000, 100, 9/10⟩, []⟩
    14000000 [65, 66, 67] 20 (1/100) 0 0 0 2 10 5000 6000
    (by intro p hp; simp at hp)).1
  rw [List.all_eq_true]
  intro p hp
  have hb := h p hp
  simp only [Bool.and_eq_true, decide_eq_true_eq]
  exact hb

namespace ale

/-- `ALEWord` from include/ale_word.h: `type` is the `WordType` enum as its
numeric value (DATA=0 .. REP=7, UNKNOWN=8), `address` the 4-byte char array. -/
structure ALEWord where
  type : Nat
  address : List Nat
  raw_payload : Nat
  fec_errors : Nat
  valid : Bool
  timestamp_ms : Nat
deriving DecidableEq, Repr

namespace WordCodec

/-- `WordParser::is_valid_ale_char`. -/
def is_valid_ale_char (ch : Nat) : Bool :=
  (65 ≤ ch ∧ ch ≤ 90) ∨ (48 ≤ ch ∧ ch ≤ 57) ∨
  ch = 32 ∨ ch = 64 ∨ ch = 63 ∨ ch = 46 ∨ ch = 45 ∨ ch = 47

/-- `WordParser::decode_ascii`: split the 21-bit payload into three 7-bit
characters; invalid characters yield `"???"` and failure. -/
def decode_ascii (payload : Nat) : List Nat × Bool :=
  let char0 := payload % 128
  let char1 := payload / 128 % 128
  let char2 := payload / 16384 % 128
  if ¬ (is_valid_ale_char char0 ∧ is_valid_ale_char char1 ∧
        is_valid_ale_char char2) then
    ([63, 63, 63, 0], false)
  else
    ([char0, char1, char2, 0], true)

/-- `WordParser::extract_preamble` (the `preamble > 7` guard is dead after
`& 0x07`; UNKNOWN = 8). -/
def extract_preamble (word_bits : Nat) : Nat :=
  let preamble := word_bits % 8
  if 7 < preamble then 8 else preamble

/-- `WordParser::extract_payload`: bits 3..23. -/
def extract_payload (word_bits : Nat) : Nat :=
  word_bits / 8 % 2097152

/-- `WordParser::parse_from_bits` (in-out `output` passed explicitly). -/
def parse_from_bits (word_bits : Nat) (output : ALEWord) : ALEWord × Bool :=
  let o1 := { output with type := extract_preamble word_bits,
                          raw_payload := extract_payload word_bits }
  let r := decode_ascii o1.raw_payload
  ({ o1 with address := r.1, valid := r.2 }, r.2)

/-- One bit copy in `SymbolDecoder::decode_word_with_voting`: symbol at
position `bit_idx + rep*49`, bit `bit_idx % 3`; symbols ≥ 8 mark the copy
invalid (0xFF).  (The `sym_idx >= 147` break is unreachable for
`bit_idx < 24`, `rep < 3`.) -/
def bit_copy (symbols : List Nat) (bit_idx rep : Nat) : Nat :=
  let sym_idx := bit_idx + rep * 49
  let symbol := symbols.getD sym_idx 0
  if 8 ≤ symbol then 255
  else symbol / 2 ^ (bit_idx % 3) % 2

/-- `SymbolDecoder::majority_vote`: the three copies are summed into a
`uint8_t`, hence the mod-256 truncation before the `>= 2` test. -/
def majority_vote (b0 b1 b2 : Nat) : Nat :=
  if 2 ≤ (b0 + b1 + b2) % 256 then 1 else 0

/-- `SymbolDecoder::decode_word_with_voting`: 24 voted bits assembled
LSB-first plus the count of non-unanimous positions. -/
def decode_word_with_voting (symbols : List Nat) : Nat × Nat :=
  (List.range 24).foldl
    (fun acc bit_idx =>
      let c0 := bit_copy symbols bit_idx 0
      let c1 := bit_copy symbols bit_idx 1
      let c2 := bit_copy symbols bit_idx 2
      let final_bit := majority_vote c0 c1 c2
      let errs : Nat := if c0 ≠ c1 ∨ c1 ≠ c2 ∨ c0 ≠ c2 then 1 else 0
      (acc.1 + final_bit * 2 ^ bit_idx, acc.2 + errs))
    (0, 0)

/-- `WordParser::parse_word`: majority-vote the 147 symbols, Golay-decode
the voted word for the error count and the uncorrectable-word rejection,
then parse preamble/payload from the voted word itself
(`parse_from_bits(raw_word & 0xFFFFFF)`). -/
def parse_word (symbols : List Nat) (output : ALEWord) : ALEWord × Bool :=
  let vote := decode_word_with_voting symbols
  let raw_word := vote.1
  let golay := Golay.decode raw_word
  if golay.2 = 255 then
    ({ output with valid := false }, false)
  else
    parse_from_bits (raw_word % 16777216) { output with fec_errors := golay.2 }

end WordCodec

end ale

namespace ale.WordCodec

lemma parse_from_bits_fields (word_bits : Nat) (output : ALEWord) :
    (parse_from_bits word_bits output).1.type = extract_preamble word_bits ∧
    (parse_from_bits word_bits output).1.address =
      (decode_ascii (extract_payload word_bits)).1 ∧
    (parse_from_bits word_bits output).1.fec_errors = output.fec_errors ∧
    (parse_from_bits word_bits output).1.raw_payload = extract_payload word_bits :=
  ⟨rfl, rfl, rfl, rfl⟩

end ale.WordCodec

/-- C9: `parse_word` derives the output's preamble and three-character
address from the uncorrected majority-voted word itself — the parse equals
`parse_from_bits` applied to the voted word, so the Golay-corrected
information bits are discarded; the Golay result influences only the
`fec_errors` count and the early rejection of uncorrectable words. -/
theorem c9_parse_word_uses_voted_word (symbols : List Nat) (output : ale.ALEWord) :
    ((ale.Golay.decode (ale.WordCodec.decode_word_with_voting symbols).1).2 ≠ 255 →
      ale.WordCodec.parse_word symbols output =
        ale.WordCodec.parse_from_bits
          ((ale.WordCodec.decode_word_with_voting symbols).1 % 16777216)
          { output with
            fec_errors :=
              (ale.Golay.decode (ale.WordCodec.decode_word_with_voting symbols).1).2 } ∧
      (ale.WordCodec.parse_word symbols output).1.type =
        ale.WordCodec.extract_preamble
          ((ale.WordCodec.decode_word_with_voting symbols).1 % 16777216) ∧
      (ale.WordCodec.parse_word symbols output).1.address =
        (ale.WordCodec.decode_ascii (ale.WordCodec.extract_payload
          ((ale.WordCodec.decode_word_with_voting symbols).1 % 16777216))).1 ∧
      (ale.WordCodec.parse_word symbols output).1.fec_errors =
        (ale.Golay.decode (ale.WordCodec.decode_word_with_voting symbols).1).2) ∧
    ((ale.Golay.decode (ale.WordCodec.decode_word_with_voting symbols).1).2 = 255 →
      ale.WordCodec.parse_word symbols output =
        ({ output with valid := false }, false)) := by
  constructor
  · intro h
    have hpw : ale.WordCodec.parse_word symbols output =
        ale.WordCodec.parse_from_bits
          ((ale.WordCodec.decode_word_with_voting symbols).1 % 16777216)
          { output with
            fec_errors :=
              (ale.Golay.decode (ale.WordCodec.decode_word_with_voting symbols).1).2 } := by
      unfold ale.WordCodec.parse_word
      simp only []
      rw [if_neg h]
    refine ⟨hpw, ?_, ?_, ?_⟩ <;> rw [hpw]
    · exact (ale.WordCodec.parse_from_bits_fields _ _).1
    · exact (ale.WordCodec.parse_from_bits_fields _ _).2.1
    · exact (ale.WordCodec.parse_from_bits_fields _ _).2.2.1
  · intro h
    unfold ale.WordCodec.parse_word
    simp only []
    rw [if_pos h]

/-- C9 witness: parsing 147 zero symbols (voted word 0, Golay error count
0 ≠ 255) goes through `parse_from_bits` on the voted word. -/
theorem c9_witness :
    ale.WordCodec.parse_word (List.replicate 147 0)
        ⟨8, [0, 0, 0, 0], 0, 0, false, 0⟩ =
      ale.WordCodec.parse_from_bits
        ((ale.WordCodec.decode_word_with_voting (List.replicate 147 0)).1 % 16777216)
        { (⟨8, [0, 0, 0, 0], 0, 0, false, 0⟩ : ale.ALEWord) with
          fec_errors :=
            (ale.Golay.decode
              (ale.WordCodec.decode_word_with_voting (List.replicate 147 0)).1).2 } :=
  ((c9_parse_word_uses_voted_word (List.replicate 147 0)
      ⟨8, [0, 0, 0, 0], 0, 0, false, 0⟩).1 (by decide)).1

namespace fs1052

/-- `ARQState` from include/fs1052_arq.h. -/
inductive ARQState
  | IDLE | TX_DATA | WAIT_ACK | RX_DATA | SEND_ACK | RETRANSMIT | ERROR
deriving DecidableEq, Repr

/-- `ARQEvent` from include/fs1052_arq.h. -/
inductive ARQEvent
  | START_TX | DATA_READY | FRAME_SENT | ACK_RECEIVED | NAK_RECEIVED
  | TIMEOUT | START_RX | FRAME_RECEIVED | TRANSFER_COMPLETE | ERROR_EVENT
  | RESET
deriving DecidableEq, Repr

/-- `DataBlock` from include/fs1052_arq.h (`data` is the used prefix of the
1023-byte array). -/
structure DataBlock where
  sequence : Nat
  offset : Nat
  length : Nat
  data : List Nat
  acknowledged : Bool
  retransmit_count : Nat
  timestamp : Nat
deriving DecidableEq, Repr

/-- `ARQStats` from include/fs1052_arq.h. -/
structure ARQStats where
  blocks_sent : Nat
  blocks_received : Nat
  blocks_retransmitted : Nat
  acks_sent : Nat
  acks_received : Nat
  naks_received : Nat
  timeouts : Nat
  crc_errors : Nat
  sequence_errors : Nat
deriving DecidableEq, Repr

def ARQStats.zero : ARQStats := ⟨0, 0, 0, 0, 0, 0, 0, 0, 0⟩

/-- The state of `VariableARQ`.  Callbacks are external; `has_tx_callback`
records whether `init` installed a transmit callback.  The receive bitmap
`bool m_rx_bitmap[256]` is a predicate on sequence numbers. -/
structure VariableARQ where
  m_state : ARQState
  m_prev_state : ARQState
  m_tx_blocks : List DataBlock
  m_retransmit_queue : List Nat
  m_next_tx_sequence : Nat
  m_window_base : Nat
  m_window_size : Nat
  m_expected_sequence : Nat
  m_rx_buffer : List Nat
  m_rx_bitmap : Nat → Bool
  m_stats : ARQStats
  m_last_tx_time : Nat
  m_ack_timeout : Nat
  m_wait_start_time : Nat
  m_max_retransmits : Nat
  has_tx_callback : Bool

namespace VariableARQ

/-- `VariableARQ::transition_to` (state-change callback external). -/
def transition_to (m : VariableARQ) (new_state : ARQState) : VariableARQ :=
  if new_state ≠ m.m_state then
    { m with m_prev_state := m.m_state, m_state := new_state }
  else m

/-- `VariableARQ::reset`. -/
def reset (m : VariableARQ) : VariableARQ :=
  let m1 := transition_to m ARQState.IDLE
  { m1 with
    m_tx_blocks := [],
    m_retransmit_queue := [],
    m_rx_buffer := [],
    m_next_tx_sequence := 0,
    m_window_base := 0,
    m_expected_sequence := 0,
    m_rx_bitmap := fun _ => false,
    m_stats := ARQStats.zero }

/-- `VariableARQ::find_block`: first transmit block with the sequence. -/
def find_block (m : VariableARQ) (sequence : Nat) : Option DataBlock :=
  m.m_tx_blocks.find? (fun b => b.sequence = sequence)

/-- `VariableARQ::all_blocks_acked`. -/
def all_blocks_acked (m : VariableARQ) : Bool :=
  m.m_tx_blocks.all (fun b => b.acknowledged)

/-- In-place mutation through the `find_block` pointer: rewrite the first
block carrying the sequence. -/
def update_first_block (l : List DataBlock) (sequence : Nat)
    (f : DataBlock → DataBlock) : List DataBlock :=
  match l with
  | [] => []
  | b :: rest =>
      if b.sequence = sequence then f b :: rest
      else b :: update_first_block rest sequence f

/-- `VariableARQ::send_block`: no-op without a block or callback; otherwise
format and emit the frame (`format_data_frame` succeeds for every block the
ARQ creates, since lengths are ≤ 1023 and the buffer is 1200 bytes), stamp
the block's timestamp and count it. -/
def send_block (m : VariableARQ) (sequence : Nat) : VariableARQ :=
  match find_block m sequence with
  | none => m
  | some _ =>
      if m.has_tx_callback = false then m
      else
        { m with
          m_tx_blocks := update_first_block m.m_tx_blocks sequence
            (fun b => { b with timestamp := m.m_last_tx_time }),
          m_stats := { m.m_stats with
            blocks_sent := m.m_stats.blocks_sent + 1 } }

/-- The `while (sent < m_window_size && m_next_tx_sequence < size)` loop of
`VariableARQ::send_next_blocks`, with an iteration-fuel argument (the model
stops after `fuel` iterations; every terminating C++ execution of the loop
is covered by an ample fuel).  `m_next_tx_sequence` is a `uint8_t`, so the
`++` wraps at 256 and the explicit `>= 256` reset in the source is dead. -/
def send_loop : Nat → VariableARQ → Nat → VariableARQ × Nat
  | 0, m, sent => (m, sent)
  | fuel + 1, m, sent =>
      if sent < m.m_window_size ∧ m.m_next_tx_sequence < m.m_tx_blocks.length then
        let seq := m.m_next_tx_sequence
        let step :=
          match find_block m seq with
          | some block =>
              if block.acknowledged = false then (send_block m seq, sent + 1)
              else (m, sent)
          | none => (m, sent)
        send_loop fuel
          { step.1 with m_next_tx_sequence := (step.1.m_next_tx_sequence + 1) % 256 }
          step.2
      else (m, sent)

/-- The `while (!m_retransmit_queue.empty())` loop of
`VariableARQ::handle_retransmit` (structural on the queue; the popped queue
is mirrored in the state; reaching `max_retransmits` reports the error and
jumps to ERROR with the rest of the queue still popped off). -/
def retransmit_loop : List Nat → VariableARQ → VariableARQ
  | [], m =>
      { transition_to m ARQState.WAIT_ACK with
        m_wait_start_time := m.m_last_tx_time }
  | seq :: rest, m =>
      let m0 := { m with m_retransmit_queue := rest }
      match find_block m0 seq with
      | some block =>
          if block.acknowledged = false then
            if m0.m_max_retransmits ≤ block.retransmit_count then
              transition_to m0 ARQState.ERROR
            else
              let m1 := send_block m0 seq
              let m2 := { m1 with
                m_tx_blocks := update_first_block m1.m_tx_blocks seq
                  (fun b => { b with retransmit_count := b.retransmit_count + 1 }),
                m_stats := { m1.m_stats with
                  blocks_retransmitted := m1.m_stats.blocks_retransmitted + 1 } }
              retransmit_loop rest m2
          else retransmit_loop rest m0
      | none => retransmit_loop rest m0

mutual

/-- `VariableARQ::process_event` with its handlers, mutually recursive with
`send_next_blocks`.  Nested `process_event` calls consume one unit of
`fuel`; the call depth of every source flow is bounded (events cascade at
most `START_TX → FRAME_SENT → TRANSFER_COMPLETE`), so any fuel ≥ 4
reproduces the C++ behaviour exactly. -/
def process_event : Nat → VariableARQ → ARQEvent → VariableARQ
  | 0, m, _ => m
  | fuel + 1, m, e =>
      match m.m_state, e with
      | ARQState.IDLE, ARQEvent.START_TX =>
          if m.m_tx_blocks ≠ [] then
            send_next_blocks fuel (transition_to m ARQState.TX_DATA)
          else m
      | ARQState.IDLE, ARQEvent.START_RX => transition_to m ARQState.RX_DATA
      | ARQState.IDLE, _ => m
      | ARQState.TX_DATA, ARQEvent.FRAME_SENT =>
          if all_blocks_acked m then
            process_event fuel m ARQEvent.TRANSFER_COMPLETE
          else
            { transition_to m ARQState.WAIT_ACK with
              m_wait_start_time := m.m_last_tx_time }
      | ARQState.TX_DATA, ARQEvent.TRANSFER_COMPLETE =>
          transition_to m ARQState.IDLE
      | ARQState.TX_DATA, ARQEvent.ERROR_EVENT => transition_to m ARQState.ERROR
      | ARQState.TX_DATA, _ => m
      | ARQState.WAIT_ACK, ARQEvent.ACK_RECEIVED =>
          if all_blocks_acked m then transition_to m ARQState.IDLE
          else if m.m_retransmit_queue ≠ [] then
            transition_to m ARQState.RETRANSMIT
          else send_next_blocks fuel (transition_to m ARQState.TX_DATA)
      | ARQState.WAIT_ACK, ARQEvent.NAK_RECEIVED =>
          transition_to
            { m with m_stats := { m.m_stats with
                naks_received := m.m_stats.naks_received + 1 } }
            ARQState.RETRANSMIT
      | ARQState.WAIT_ACK, ARQEvent.TIMEOUT =>
          transition_to
            { m with m_stats := { m.m_stats with
                timeouts := m.m_stats.timeouts + 1 } }
            ARQState.RETRANSMIT
      | ARQState.WAIT_ACK, ARQEvent.ERROR_EVENT => transition_to m ARQState.ERROR
      | ARQState.WAIT_ACK, _ => m
      | ARQState.RX_DATA, ARQEvent.FRAME_RECEIVED =>
          transition_to m ARQState.SEND_ACK
      | ARQState.RX_DATA, ARQEvent.TRANSFER_COMPLETE =>
          -- reassemble_data() is a no-op in the source
          transition_to m ARQState.IDLE
      | ARQState.RX_DATA, ARQEvent.ERROR_EVENT => transition_to m ARQState.ERROR
      | ARQState.RX_DATA, _ => m
      | ARQState.SEND_ACK, ARQEvent.FRAME_SENT => transition_to m ARQState.RX_DATA
      | ARQState.SEND_ACK, _ => m
      | ARQState.RETRANSMIT, ARQEvent.DATA_READY =>
          retransmit_loop m.m_retransmit_queue m
      | ARQState.RETRANSMIT, _ => m
      | ARQState.ERROR, ARQEvent.RESET => reset m
      | ARQState.ERROR, _ => m
termination_by fuel m e => 2 * fuel + 1

/-- `VariableARQ::send_next_blocks`: run the window loop (ample iteration
fuel), then raise FRAME_SENT when anything was sent. -/
def send_next_blocks : Nat → VariableARQ → VariableARQ
  | fuel, mm =>
      let r := send_loop (mm.m_window_size + 257) mm 0
      if 0 < r.2 then process_event fuel r.1 ARQEvent.FRAME_SENT else r.1
termination_by fuel mm => 2 * fuel + 2

end

/-- The block-creation loop of `VariableARQ::create_blocks`
(`MAX_DATA_BLOCK_LENGTH = 1023`; `seq` is a `uint8_t`, wrapping at 256 and
making the explicit `>= 256` reset dead; `offset` is a `uint32_t`, exact
for messages under 2^32 bytes). -/
def create_blocks_go (data : List Nat) (offset seq : Nat) : List DataBlock :=
  match data with
  | [] => []
  | d :: rest =>
      let n := min 1023 (d :: rest).length
      { sequence := seq, offset := offset, length := n,
        data := (d :: rest).take n, acknowledged := false,
        retransmit_count := 0, timestamp := 0 } ::
      create_blocks_go ((d :: rest).drop n) (offset + n) ((seq + 1) % 256)
termination_by data.length
decreasing_by
  simp only [List.length_drop, List.length_cons]
  omega

/-- `VariableARQ::create_blocks`. -/
def create_blocks (m : VariableARQ) (data : List Nat) : VariableARQ :=
  { m with
    m_tx_blocks := create_blocks_go data 0 0,
    m_next_tx_sequence := 0,
    m_window_base := 0 }

/-- `VariableARQ::start_transmission` (`report_error` only invokes the
external error callback). -/
def start_transmission (m : VariableARQ) (data : List Nat) :
    VariableARQ × Bool :=
  if m.m_state ≠ ARQState.IDLE then (m, false)
  else if m.has_tx_callback = false then (m, false)
  else
    let m1 := create_blocks m data
    (process_event 8 m1 ARQEvent.START_TX, true)

/-- `get_stats` and `get_received_data` accessors. -/
def get_stats (m : VariableARQ) : ARQStats := m.m_stats

def get_received_data (m : VariableARQ) : List Nat := m.m_rx_buffer

end VariableARQ

end fs1052

/-- The wire-relevant fields of a transmit block: sequence, offset, length,
payload and acknowledged flag (everything except the retransmit counter and
the send timestamp). -/
def fs1052.VariableARQ.blockWire (b : fs1052.DataBlock) :
    Nat × Nat × Nat × List Nat × Bool :=
  (b.sequence, b.offset, b.length, b.data, b.acknowledged)

namespace fs1052.VariableARQ

lemma transition_to_state (m : VariableARQ) (s : fs1052.ARQState) :
    (transition_to m s).m_state = s := by
  unfold transition_to
  by_cases h : s ≠ m.m_state
  · rw [if_pos h]
  · rw [if_neg h]
    exact (not_not.mp h).symm

lemma transition_to_blocks (m : VariableARQ) (s : fs1052.ARQState) :
    (transition_to m s).m_tx_blocks = m.m_tx_blocks := by
  unfold transition_to
  split <;> rfl

lemma update_first_block_wire (l : List fs1052.DataBlock) (seq : Nat)
    (f : fs1052.DataBlock → fs1052.DataBlock)
    (hf : ∀ b, blockWire (f b) = blockWire b) :
    (update_first_block l seq f).map blockWire = l.map blockWire := by
  induction l with
  | nil => rfl
  | cons b rest ih =>
      unfold update_first_block
      by_cases h : b.sequence = seq
      · rw [if_pos h]
        simp [hf b]
      · rw [if_neg h]
        simp [ih]

lemma send_block_wire (m : VariableARQ) (seq : Nat) :
    (send_block m seq).m_tx_blocks.map blockWire =
      m.m_tx_blocks.map blockWire ∧
    (send_block m seq).m_state = m.m_state := by
  unfold send_block
  cases find_block m seq with
  | none => exact ⟨rfl, rfl⟩
  | some b =>
      simp only []
      split
      · exact ⟨rfl, rfl⟩
      · exact ⟨update_first_block_wire _ _ _ (fun b => rfl), rfl⟩

lemma send_loop_wire (fuel : Nat) (m : VariableARQ) (sent : Nat) :
    (send_loop fuel m sent).1.m_tx_blocks.map blockWire =
      m.m_tx_blocks.map blockWire ∧
    (send_loop fuel m sent).1.m_state = m.m_state := by
  induction fuel generalizing m sent with
  | zero => exact ⟨rfl, rfl⟩
  | succ fuel ih =>
      unfold send_loop
      split
      · rcases hfind : find_block m m.m_next_tx_sequence with _ | block
        · simp only [hfind]
          exact ih _ _
        · simp only [hfind]
          by_cases hack : block.acknowledged = false
          · rw [if_pos hack]
            have hsb := send_block_wire m m.m_next_tx_sequence
            have hr := ih { send_block m m.m_next_tx_sequence with
              m_next_tx_sequence :=
                ((send_block m m.m_next_tx_sequence).m_next_tx_sequence + 1) % 256 }
              (sent + 1)
            exact ⟨hr.1.trans hsb.1, hr.2.trans hsb.2⟩
          · rw [if_neg hack]
            exact ih _ _
      · exact ⟨rfl, rfl⟩

lemma all_blocks_acked_of_wire_eq (l1 l2 : List fs1052.DataBlock)
    (h : l1.map blockWire = l2.map blockWire) :
    l1.all (fun b => b.acknowledged) = l2.all (fun b => b.acknowledged) := by
  induction l1 generalizing l2 with
  | nil => cases l2 <;> simp_all
  | cons b rest ih =>
      cases l2 with
      | nil => simp_all
      | cons c rest2 =>
          simp only [List.map_cons, List.cons.injEq] at h
          have hb : b.acknowledged = c.acknowledged := by
            have := h.1
            simp only [blockWire, Prod.mk.injEq] at this
            exact this.2.2.2.2
          simp [List.all_cons, hb, ih rest2 h.2]

/-- The whole `process_event START_TX` cascade out of IDLE — window send
loop, FRAME_SENT, and possibly TRANSFER_COMPLETE — never alters the
wire-relevant content of the transmit block list. -/
lemma process_start_tx_wire (m1 : VariableARQ)
    (h1 : m1.m_state = fs1052.ARQState.IDLE) :
    (process_event 8 m1 fs1052.ARQEvent.START_TX).m_tx_blocks.map blockWire
      = m1.m_tx_blocks.map blockWire := by
  unfold process_event
  rw [h1]
  simp only []
  by_cases hne : m1.m_tx_blocks ≠ []
  · rw [if_pos hne]
    unfold send_next_blocks
    simp only []
    set m2 := transition_to m1 fs1052.ARQState.TX_DATA with hm2
    have hm2b : m2.m_tx_blocks = m1.m_tx_blocks := transition_to_blocks _ _
    have hm2s : m2.m_state = fs1052.ARQState.TX_DATA := transition_to_state _ _
    set r := send_loop (m2.m_window_size + 257) m2 0 with hr
    have hrw := send_loop_wire (m2.m_window_size + 257) m2 0
    rw [← hr] at hrw
    by_cases hsent : 0 < r.2
    · rw [if_pos hsent]
      have hrs : r.1.m_state = fs1052.ARQState.TX_DATA := hrw.2.trans hm2s
      unfold process_event
      rw [hrs]
      simp only []
      by_cases hacked : all_blocks_acked r.1 = true
      · rw [if_pos hacked]
        unfold process_event
        rw [hrs]
        simp only []
        rw [transition_to_blocks]
        rw [hrw.1, hm2b]
      · rw [if_neg hacked]
        show (transition_to r.1 fs1052.ARQState.WAIT_ACK).m_tx_blocks.map _ = _
        rw [transition_to_blocks]
        rw [hrw.1, hm2b]
    · rw [if_neg hsent]
      rw [hrw.1, hm2b]
  · rw [if_neg hne]

end fs1052.VariableARQ

/-- C10: after every call to `VariableARQ::reset`, the machine is in IDLE,
all transfer statistics are zeroed, the transmit block list and retransmit
queue are empty, the reassembly buffer is empty, the 256-entry receive
bitmap is cleared, the next transmit sequence and window base (and the
expected receive sequence) are 0, and `get_stats` / `get_received_data`
reflect a fresh session. -/
theorem c10_reset_clears_session (m : fs1052.VariableARQ) :
    (fs1052.VariableARQ.reset m).m_state = fs1052.ARQState.IDLE ∧
    (fs1052.VariableARQ.reset m).m_tx_blocks = [] ∧
    (fs1052.VariableARQ.reset m).m_retransmit_queue = [] ∧
    (fs1052.VariableARQ.reset m).m_rx_buffer = [] ∧
    (∀ seq, (fs1052.VariableARQ.reset m).m_rx_bitmap seq = false) ∧
    (fs1052.VariableARQ.reset m).m_next_tx_sequence = 0 ∧
    (fs1052.VariableARQ.reset m).m_window_base = 0 ∧
    (fs1052.VariableARQ.reset m).m_expected_sequence = 0 ∧
    (fs1052.VariableARQ.reset m).m_stats = fs1052.ARQStats.zero ∧
    fs1052.VariableARQ.get_stats (fs1052.VariableARQ.reset m) =
      fs1052.ARQStats.zero ∧
    fs1052.VariableARQ.get_received_data (fs1052.VariableARQ.reset m) = [] := by
  have hstate : (fs1052.VariableARQ.reset m).m_state = fs1052.ARQState.IDLE := by
    unfold fs1052.VariableARQ.reset
    show (fs1052.VariableARQ.transition_to m fs1052.ARQState.IDLE).m_state =
      fs1052.ARQState.IDLE
    exact fs1052.VariableARQ.transition_to_state m fs1052.ARQState.IDLE
  exact ⟨hstate, rfl, rfl, rfl, fun _ => rfl, rfl, rfl, rfl, rfl, rfl, rfl⟩

namespace fs1052.VariableARQ

/-- One unfolding of the `create_blocks` loop on a non-empty list, with the
lengths in canonical `rest.length + 1` form. -/
lemma create_blocks_go_cons (d : Nat) (rest : List Nat) (offset seq : Nat) :
    create_blocks_go (d :: rest) offset seq =
      { sequence := seq, offset := offset, length := min 1023 (rest.length + 1),
        data := (d :: rest).take (min 1023 (rest.length + 1)),
        acknowledged := false, retransmit_count := 0, timestamp := 0 } ::
      create_blocks_go ((d :: rest).drop (min 1023 (rest.length + 1)))
        (offset + min 1023 (rest.length + 1)) ((seq + 1) % 256) := by
  conv_lhs => rw [create_blocks_go]
  simp only [List.length_cons]

lemma create_blocks_go_nil (offset seq : Nat) :
    create_blocks_go [] offset seq = [] := by
  rw [create_blocks_go]

lemma create_blocks_go_length :
    ∀ (bound : Nat) (data : List Nat) (offset seq : Nat),
      data.length ≤ bound →
      (create_blocks_go data offset seq).length = (data.length + 1022) / 1023 := by
  intro bound
  induction bound with
  | zero =>
      intro data offset seq hlen
      have : data = [] := List.eq_nil_of_length_eq_zero (Nat.le_zero.mp hlen)
      subst this
      simp [create_blocks_go]
  | succ bound ih =>
      intro data offset seq hlen
      cases data with
      | nil => simp [create_blocks_go]
      | cons d rest =>
          simp only [List.length_cons] at hlen
          have hdl : ((d :: rest).drop (min 1023 (rest.length + 1))).length ≤ bound := by
            simp only [List.length_drop, List.length_cons]
            omega
          have hrec := ih ((d :: rest).drop (min 1023 (rest.length + 1)))
            (offset + min 1023 (rest.length + 1)) ((seq + 1) % 256) hdl
          rw [create_blocks_go_cons, List.length_cons, hrec]
          simp only [List.length_drop, List.length_cons]
          omega

lemma create_blocks_go_get :
    ∀ (bound : Nat) (data : List Nat) (offset seq : Nat),
      data.length ≤ bound → seq < 256 →
      ∀ i (h : i < (create_blocks_go data offset seq).length),
        (create_blocks_go data offset seq)[i].sequence = (seq + i) % 256 ∧
        (create_blocks_go data offset seq)[i].offset = offset + 1023 * i ∧
        (create_blocks_go data offset seq)[i].length =
          min 1023 (data.length - 1023 * i) ∧
        (create_blocks_go data offset seq)[i].data =
          (data.drop (1023 * i)).take 1023 ∧
        (create_blocks_go data offset seq)[i].acknowledged = false := by
  intro bound
  induction bound with
  | zero =>
      intro data offset seq hlen _ i h
      have : data = [] := List.eq_nil_of_length_eq_zero (Nat.le_zero.mp hlen)
      subst this
      simp [create_blocks_go] at h
  | succ bound ih =>
      intro data offset seq hlen hseq i h
      cases data with
      | nil => simp [create_blocks_go] at h
      | cons d rest =>
          simp only [List.length_cons] at hlen
          have hdl : ((d :: rest).drop (min 1023 (rest.length + 1))).length ≤ bound := by
            simp only [List.length_drop, List.length_cons]
            omega
          cases i with
          | zero =>
              simp only [create_blocks_go_cons, List.getElem_cons_zero,
                List.length_cons]
              refine ⟨by simpa using (Nat.mod_eq_of_lt hseq).symm, by simp,
                by omega, ?_, by trivial⟩
              rw [Nat.mul_zero, List.drop_zero, List.take_eq_take]
              simp only [List.length_cons]
              omega
          | succ i =>
              have h' := h
              rw [create_blocks_go_cons, List.length_cons] at h'
              have htail : i < (create_blocks_go
                  ((d :: rest).drop (min 1023 (rest.length + 1)))
                  (offset + min 1023 (rest.length + 1)) ((seq + 1) % 256)).length := by
                omega
              have hrec := ih ((d :: rest).drop (min 1023 (rest.length + 1)))
                (offset + min 1023 (rest.length + 1)) ((seq + 1) % 256)
                hdl (Nat.mod_lt _ (by omega)) i htail
              -- the tail is non-empty at index i, so this head block is full
              have hfull : min 1023 (rest.length + 1) = 1023 := by
                by_contra hne
                have hmin : min 1023 (rest.length + 1) = rest.length + 1 := by omega
                have hz : (create_blocks_go
                    ((d :: rest).drop (min 1023 (rest.length + 1)))
                    (offset + min 1023 (rest.length + 1)) ((seq + 1) % 256)).length
                      = 0 := by
                  rw [hmin,
                    show rest.length + 1 = (d :: rest).length from
                      (List.length_cons d rest).symm,
                    List.drop_length, create_blocks_go_nil]
                  rfl
                omega
              simp only [create_blocks_go_cons, List.getElem_cons_succ]
              refine ⟨?_, ?_, ?_, ?_, hrec.2.2.2.2⟩
              · rw [hrec.1, Nat.mod_add_mod]
                omega
              · rw [hrec.2.1, hfull]
                ring
              · rw [hrec.2.2.1, hfull]
                simp only [List.length_drop, List.length_cons]
                omega
              · rw [hrec.2.2.2.1, hfull, List.drop_drop, Nat.mul_succ,
                  Nat.add_comm 1023 (1023 * i)]

end fs1052.VariableARQ

lemma get_of_map_eq {α β : Type} (f : α → β) (l1 l2 : List α)
    (h : l1.map f = l2.map f) (i : Nat) (h1 : i < l1.length)
    (h2 : i < l2.length) :
    f (l1.get ⟨i, h1⟩) = f (l2.get ⟨i, h2⟩) := by
  have hm := congrArg (fun l => l.getD i (f (l1.get ⟨i, h1⟩))) h
  simp only [List.getD_map] at hm
  rw [List.getD_eq_get _ _ h1, List.getD_eq_get _ _ h2] at hm
  exact hm

/-- A concrete freshly initialized ARQ machine (default window size 16, ack
timeout 5000 ms, max retransmits 3, transmit callback installed). -/
def arqM0 : fs1052.VariableARQ :=
  ⟨fs1052.ARQState.IDLE, fs1052.ARQState.IDLE, [], [], 0, 0, 16, 0, [],
   fun _ => false, fs1052.ARQStats.zero, 0, 5000, 0, 3, true⟩

/-- C3: `start_transmission` called in any ARQ state other than IDLE
returns false and changes no transmitter state; called in IDLE with a
transmit callback configured, it returns true and segments the input into
blocks of at most 1023 bytes whose sequence numbers are 0, 1, 2, …
wrapping to 0 at 256 and whose offsets are the cumulative byte positions
of the input. -/
theorem c3_start_transmission_behavior (m : fs1052.VariableARQ)
    (input : List Nat) :
    (m.m_state ≠ fs1052.ARQState.IDLE →
      fs1052.VariableARQ.start_transmission m input = (m, false)) ∧
    (m.m_state = fs1052.ARQState.IDLE → m.has_tx_callback = true →
      input.length < 2 ^ 32 →
      (fs1052.VariableARQ.start_transmission m input).2 = true ∧
      (fs1052.VariableARQ.start_transmission m input).1.m_tx_blocks.length =
        (input.length + 1022) / 1023 ∧
      ∀ i (h : i <
          (fs1052.VariableARQ.start_transmission m input).1.m_tx_blocks.length),
        (fs1052.VariableARQ.start_transmission m input).1.m_tx_blocks[i].sequence
            = i % 256 ∧
        (fs1052.VariableARQ.start_transmission m input).1.m_tx_blocks[i].offset
            = 1023 * i ∧
        (fs1052.VariableARQ.start_transmission m input).1.m_tx_blocks[i].length
            = min 1023 (input.length - 1023 * i) ∧
        (fs1052.VariableARQ.start_transmission m input).1.m_tx_blocks[i].length
            ≤ 1023 ∧
        (fs1052.VariableARQ.start_transmission m input).1.m_tx_blocks[i].data
            = (input.drop (1023 * i)).take 1023) := by
  constructor
  · intro h
    unfold fs1052.VariableARQ.start_transmission
    rw [if_pos h]
  · intro hs hcb _hlen
    have hst : fs1052.VariableARQ.start_transmission m input =
        (fs1052.VariableARQ.process_event 8
          (fs1052.VariableARQ.create_blocks m input)
          fs1052.ARQEvent.START_TX, true) := by
      unfold fs1052.VariableARQ.start_transmission
      rw [if_neg (by simp [hs]), if_neg (by simp [hcb])]
    rw [hst]
    have hm1s : (fs1052.VariableARQ.create_blocks m input).m_state =
        fs1052.ARQState.IDLE := hs
    have hw := fs1052.VariableARQ.process_start_tx_wire
      (fs1052.VariableARQ.create_blocks m input) hm1s
    have hcb0 : (fs1052.VariableARQ.create_blocks m input).m_tx_blocks =
        fs1052.VariableARQ.create_blocks_go input 0 0 := rfl
    rw [hcb0] at hw
    have hlen_eq : (fs1052.VariableARQ.process_event 8
        (fs1052.VariableARQ.create_blocks m input)
        fs1052.ARQEvent.START_TX).m_tx_blocks.length =
        (fs1052.VariableARQ.create_blocks_go input 0 0).length := by
      have := congrArg List.length hw
      simpa using this
    have hcl := fs1052.VariableARQ.create_blocks_go_length input.length input 0 0
      le_rfl
    refine ⟨rfl, by rw [hlen_eq, hcl], ?_⟩
    intro i h
    have h2 : i < (fs1052.VariableARQ.create_blocks_go input 0 0).length := by
      rw [← hlen_eq]
      exact h
    have hwire := get_of_map_eq fs1052.VariableARQ.blockWire _ _ hw i h h2
    have hget := fs1052.VariableARQ.create_blocks_go_get input.length input 0 0
      le_rfl (by norm_num) i h2
    simp only [fs1052.VariableARQ.blockWire, List.get_eq_getElem,
      Prod.mk.injEq] at hwire
    refine ⟨?_, ?_, ?_, ?_, ?_⟩
    · rw [hwire.1, hget.1, Nat.zero_add]
    · rw [hwire.2.1, hget.2.1, Nat.zero_add]
    · rw [hwire.2.2.1, hget.2.2.1]
    · rw [hwire.2.2.1, hget.2.2.1]
      omega
    · rw [hwire.2.2.2.1, hget.2.2.2.1]

/-- C3 witness: a fresh IDLE machine with a callback accepts a 3-byte
message and produces the single expected block. -/
theorem c3_witness :
    (fs1052.VariableARQ.start_transmission arqM0 [1, 2, 3]).2 = true ∧
    (fs1052.VariableARQ.start_transmission arqM0 [1, 2, 3]).1.m_tx_blocks.length =
      ([1, 2, 3].length + 1022) / 1023 ∧
    ∀ i (h : i <
        (fs1052.VariableARQ.start_transmission arqM0 [1, 2, 3]).1.m_tx_blocks.length),
      (fs1052.VariableARQ.start_transmission arqM0 [1, 2, 3]).1.m_tx_blocks[i].sequence
          = i % 256 ∧
      (fs1052.VariableARQ.start_transmission arqM0 [1, 2, 3]).1.m_tx_blocks[i].offset
          = 1023 * i ∧
      (fs1052.VariableARQ.start_transmission arqM0 [1, 2, 3]).1.m_tx_blocks[i].length
          = min 1023 ([1, 2, 3].length - 1023 * i) ∧
      (fs1052.VariableARQ.start_transmission arqM0 [1, 2, 3]).1.m_tx_blocks[i].length
          ≤ 1023 ∧
      (fs1052.VariableARQ.start_transmission arqM0 [1, 2, 3]).1.m_tx_blocks[i].data
          = ([1, 2, 3].drop (1023 * i)).take 1023 :=
  (c3_start_transmission_behavior arqM0 [1, 2, 3]).2 rfl rfl (by norm_num)

namespace fs1052

/-- One iteration of the CRC-32 bit loop in `crc32_byte`
(polynomial 0x04C11DB7, MSB-first): test the top bit of the 32-bit
register, shift left, conditionally XOR the polynomial. -/
def crc32_round (crc : Nat) : Nat :=
  if 2 ^ 31 ≤ crc then (2 * crc % 2 ^ 32) ^^^ 0x04C11DB7
  else 2 * crc % 2 ^ 32

/-- The 8-round bit loop of `crc32_byte`. -/
def crc32_rounds : Nat → Nat → Nat
  | 0, crc => crc
  | n + 1, crc => crc32_rounds n (crc32_round crc)

/-- `crc32_byte`: XOR the data byte into the top of the register, then run
8 rounds. -/
def crc32_byte (data crc : Nat) : Nat :=
  crc32_rounds 8 (crc ^^^ data * 2 ^ 24)

/-- `FrameFormatter::calculate_crc32`: initial value 0xFFFFFFFF, final
complement (`~crc` on `uint32_t` is XOR with 0xFFFFFFFF). -/
def calculate_crc32 (data : List Nat) : Nat :=
  (data.foldl (fun crc d => crc32_byte d crc) 0xFFFFFFFF) ^^^ 0xFFFFFFFF

/-- The four big-endian CRC bytes appended by `FrameFormatter::append_crc32`. -/
def crc32_bytes (crc : Nat) : List Nat :=
  [crc / 2 ^ 24 % 256, crc / 2 ^ 16 % 256, crc / 2 ^ 8 % 256, crc % 256]

/-- `FrameFormatter::append_crc32`. -/
def append_crc32 (buffer : List Nat) : List Nat :=
  buffer ++ crc32_bytes (calculate_crc32 buffer)

/-- `DataFrame` from include/fs1052_protocol.h: enums as their numeric
values, `data` as the used prefix of the 1023-byte payload array. -/
structure DataFrame where
  data_rate_format : Nat
  data_rate : Nat
  interleaver_length : Nat
  sequence_number : Nat
  msg_byte_offset : Nat
  data_length : Nat
  data : List Nat
deriving DecidableEq, Repr

/-- Well-formedness of a data frame as the C++ types and the
`MAX_DATA_BLOCK_LENGTH` limit impose it: one-bit rate format, 3-bit rate
(claim C2 restricts `data_rate` to 0..7), byte-sized interleaver code and
sequence, 32-bit offset, payload of at most 1023 bytes matching
`data_length`, all payload bytes byte-sized. -/
def DataFrame.wf (f : DataFrame) : Prop :=
  f.data_rate_format < 2 ∧ f.data_rate < 8 ∧ f.interleaver_length < 256 ∧
  f.sequence_number < 256 ∧ f.msg_byte_offset < 2 ^ 32 ∧
  f.data_length = f.data.length ∧ f.data_length ≤ 1023 ∧
  ∀ b ∈ f.data, b < 256

instance (f : DataFrame) : Decidable f.wf := by
  unfold DataFrame.wf
  infer_instance

/-- The CRC-covered body written by `FrameFormatter::format_data_frame`:
header byte `0x01 | (format << 7) | ((rate & 7) << 4)` (disjoint bit
fields, written additively), interleaver byte, sequence byte, big-endian
32-bit message offset, big-endian 16-bit data length, then `data_length`
payload bytes. -/
def data_frame_body (frame : DataFrame) : List Nat :=
  [1 + frame.data_rate_format % 2 * 128 + frame.data_rate % 8 * 16,
   frame.interleaver_length % 256,
   frame.sequence_number % 256,
   frame.msg_byte_offset / 2 ^ 24 % 256,
   frame.msg_byte_offset / 2 ^ 16 % 256,
   frame.msg_byte_offset / 2 ^ 8 % 256,
   frame.msg_byte_offset % 256,
   frame.data_length / 2 ^ 8 % 256,
   frame.data_length % 256]
  ++ frame.data.take frame.data_length

/-- `FrameFormatter::format_data_frame` (the caller-supplied buffer is
always large enough in the modelled flows, so the `-1` buffer-size branch
is not taken): body then CRC-32. -/
def format_data_frame (frame : DataFrame) : List Nat :=
  append_crc32 (data_frame_body frame)

/-- `FrameParser::validate_crc32`: CRC over all bytes but the last four,
compared with the big-endian CRC trailer (byte recombination of disjoint
shifts written additively). -/
def validate_crc32 (buffer : List Nat) : Bool :=
  if buffer.length < 4 then false
  else
    let calculated := calculate_crc32 (buffer.take (buffer.length - 4))
    let received := buffer.getD (buffer.length - 4) 0 * 2 ^ 24 +
      buffer.getD (buffer.length - 3) 0 * 2 ^ 16 +
      buffer.getD (buffer.length - 2) 0 * 2 ^ 8 +
      buffer.getD (buffer.length - 1) 0
    calculated = received

/-- `FrameParser::parse_data_frame` (out-parameter frame becomes an
`Option`): length guard, CRC check, header/field extraction, length
consistency check `index + data_length + 4 == length`, payload copy. -/
def parse_data_frame (buffer : List Nat) : Option DataFrame :=
  if buffer.length < 13 then none
  else if validate_crc32 buffer = false then none
  else
    let b0 := buffer.getD 0 0
    let data_rate_format := b0 / 2 ^ 7 % 2
    let data_rate := b0 / 2 ^ 4 % 8
    let interleaver := buffer.getD 1 0
    let seq := buffer.getD 2 0
    let offset := buffer.getD 3 0 * 2 ^ 24 + buffer.getD 4 0 * 2 ^ 16 +
      buffer.getD 5 0 * 2 ^ 8 + buffer.getD 6 0
    let len := buffer.getD 7 0 * 2 ^ 8 + buffer.getD 8 0
    if 1023 < len ∨ 9 + len + 4 ≠ buffer.length then none
    else some ⟨data_rate_format, data_rate, interleaver, seq, offset, len,
      (buffer.drop 9).take len⟩

/-- Flip bit `p % 8` of byte `p / 8` of a buffer. -/
def flip_bit (buffer : List Nat) (p : Nat) : List Nat :=
  buffer.set (p / 8) (buffer.getD (p / 8) 0 ^^^ 2 ^ (p % 8))

end fs1052

namespace fs1052

lemma crc32_round_lt (crc : Nat) : crc32_round crc < 2 ^ 32 := by
  unfold crc32_round
  split
  · exact Nat.xor_lt_two_pow (Nat.mod_lt _ (by norm_num)) (by norm_num)
  · exact Nat.mod_lt _ (by norm_num)

lemma crc32_round_inj (a b : Nat) (ha : a < 2 ^ 32) (hb : b < 2 ^ 32)
    (h : crc32_round a = crc32_round b) : a = b := by
  unfold crc32_round at h
  by_cases h1 : 2 ^ 31 ≤ a <;> by_cases h2 : 2 ^ 31 ≤ b
  · rw [if_pos h1, if_pos h2] at h
    have hx := congrArg (fun z => z ^^^ 0x04C11DB7) h
    simp only [Nat.xor_cancel_right] at hx
    omega
  · rw [if_pos h1, if_neg h2] at h
    have hpar := congrArg (fun z => z % 2) h
    simp only [Nat.xor_mod_two_eq] at hpar
    omega
  · rw [if_neg h1, if_pos h2] at h
    have hpar := congrArg (fun z => z % 2) h
    simp only [Nat.xor_mod_two_eq] at hpar
    omega
  · rw [if_neg h1, if_neg h2] at h
    omega

lemma crc32_rounds_lt (n crc : Nat) (h : crc < 2 ^ 32) :
    crc32_rounds n crc < 2 ^ 32 := by
  induction n generalizing crc with
  | zero => exact h
  | succ n ih => exact ih _ (crc32_round_lt crc)

lemma crc32_rounds_inj (n a b : Nat) (ha : a < 2 ^ 32) (hb : b < 2 ^ 32)
    (h : crc32_rounds n a = crc32_rounds n b) : a = b := by
  induction n generalizing a b with
  | zero => exact h
  | succ n ih =>
      exact crc32_round_inj a b ha hb
        (ih _ _ (crc32_round_lt a) (crc32_round_lt b) h)

lemma crc32_byte_lt (d crc : Nat) : crc32_byte d crc < 2 ^ 32 := by
  unfold crc32_byte
  rw [show (8 : Nat) = 7 + 1 from rfl, crc32_rounds]
  exact crc32_rounds_lt 7 _ (crc32_round_lt _)

lemma crc32_byte_inj_crc (d a b : Nat) (hd : d < 256) (ha : a < 2 ^ 32)
    (hb : b < 2 ^ 32) (hab : a ≠ b) : crc32_byte d a ≠ crc32_byte d b := by
  intro h
  unfold crc32_byte at h
  have heq := crc32_rounds_inj 8 _ _ (Nat.xor_lt_two_pow ha (by omega))
    (Nat.xor_lt_two_pow hb (by omega)) h
  have hx := congrArg (fun z => z ^^^ d * 2 ^ 24) heq
  simp only [Nat.xor_cancel_right] at hx
  exact hab hx

lemma crc32_byte_inj_data (d1 d2 crc : Nat) (h1 : d1 < 256) (h2 : d2 < 256)
    (hcrc : crc < 2 ^ 32) (hne : d1 ≠ d2) :
    crc32_byte d1 crc ≠ crc32_byte d2 crc := by
  intro h
  unfold crc32_byte at h
  have heq := crc32_rounds_inj 8 _ _ (Nat.xor_lt_two_pow hcrc (by omega))
    (Nat.xor_lt_two_pow hcrc (by omega)) h
  have hmul : d1 * 2 ^ 24 = d2 * 2 ^ 24 := by
    have h3 := congrArg (fun z => crc ^^^ z) heq
    simpa only [Nat.xor_cancel_left] using h3
  exact hne (Nat.eq_of_mul_eq_mul_right (by norm_num) hmul)

lemma foldl_crc_lt (l : List Nat) (crc : Nat) (h : crc < 2 ^ 32) :
    l.foldl (fun crc d => crc32_byte d crc) crc < 2 ^ 32 := by
  induction l generalizing crc with
  | nil => exact h
  | cons d rest ih =>
      rw [List.foldl_cons]
      exact ih _ (crc32_byte_lt d crc)

lemma foldl_crc_inj (l : List Nat) (a b : Nat) (hl : ∀ c ∈ l, c < 256)
    (ha : a < 2 ^ 32) (hb : b < 2 ^ 32) (hab : a ≠ b) :
    l.foldl (fun crc d => crc32_byte d crc) a ≠
    l.foldl (fun crc d => crc32_byte d crc) b := by
  induction l generalizing a b with
  | nil => exact hab
  | cons d rest ih =>
      have hd : d < 256 := hl d (List.mem_cons_self d rest)
      rw [List.foldl_cons, List.foldl_cons]
      exact ih _ _ (fun c hc => hl c (List.mem_cons_of_mem d hc))
        (crc32_byte_lt d a) (crc32_byte_lt d b)
        (crc32_byte_inj_crc d a b hd ha hb hab)

/-- Buffers that differ in exactly one byte have different CRC-32s. -/
lemma calculate_crc32_ne (pre suf : List Nat) (x y : Nat)
    (hx : x < 256) (hy : y < 256) (hxy : x ≠ y)
    (hsuf : ∀ b ∈ suf, b < 256) :
    calculate_crc32 (pre ++ x :: suf) ≠ calculate_crc32 (pre ++ y :: suf) := by
  unfold calculate_crc32
  intro h
  have hc := congrArg (fun z => z ^^^ 0xFFFFFFFF) h
  simp only [Nat.xor_cancel_right] at hc
  rw [List.foldl_append, List.foldl_append, List.foldl_cons, List.foldl_cons] at hc
  have hcpre : pre.foldl (fun crc d => crc32_byte d crc) 0xFFFFFFFF < 2 ^ 32 :=
    foldl_crc_lt pre _ (by norm_num)
  exact foldl_crc_inj suf _ _ hsuf
    (crc32_byte_lt x _) (crc32_byte_lt y _)
    (crc32_byte_inj_data x y _ hx hy hcpre hxy) hc

lemma calculate_crc32_lt (l : List Nat) : calculate_crc32 l < 2 ^ 32 := by
  unfold calculate_crc32
  exact Nat.xor_lt_two_pow (foldl_crc_lt l _ (by norm_num)) (by norm_num)

end fs1052

namespace fs1052

lemma validate_append_crc32 (body : List Nat) :
    validate_crc32 (append_crc32 body) = true := by
  have hclt := calculate_crc32_lt body
  unfold append_crc32 validate_crc32 crc32_bytes
  set c := calculate_crc32 body with hc
  have hlen : (body ++
      [c / 2 ^ 24 % 256, c / 2 ^ 16 % 256, c / 2 ^ 8 % 256, c % 256]).length =
      body.length + 4 := by
    simp
  rw [if_neg (by omega)]
  simp only [hlen]
  have e1 : body.length + 4 - 4 = body.length := by omega
  have e2 : body.length + 4 - 3 = body.length + 1 := by omega
  have e3 : body.length + 4 - 2 = body.length + 2 := by omega
  have e4 : body.length + 4 - 1 = body.length + 3 := by omega
  rw [e1, e2, e3, e4, List.take_left]
  rw [List.getD_append_right _ _ _ _ le_rfl,
    List.getD_append_right _ _ _ _ (by omega),
    List.getD_append_right _ _ _ _ (by omega),
    List.getD_append_right _ _ _ _ (by omega)]
  have f1 : body.length - body.length = 0 := by omega
  have f2 : body.length + 1 - body.length = 1 := by omega
  have f3 : body.length + 2 - body.length = 2 := by omega
  have f4 : body.length + 3 - body.length = 3 := by omega
  rw [f1, f2, f3, f4]
  simp only [List.getD, List.getElem?_cons_zero, List.getElem?_cons_succ,
    List.get?_cons_zero, List.get?_cons_succ, Option.getD_some]
  rw [decide_eq_true_eq]
  omega

end fs1052

namespace fs1052

lemma validate_crc32_eval (body : List Nat) (t0 t1 t2 t3 : Nat) :
    validate_crc32 (body ++ [t0, t1, t2, t3]) =
      decide (calculate_crc32 body =
        t0 * 2 ^ 24 + t1 * 2 ^ 16 + t2 * 2 ^ 8 + t3) := by
  unfold validate_crc32
  have hlen : (body ++ [t0, t1, t2, t3]).length = body.length + 4 := by
    simp
  rw [if_neg (by omega)]
  simp only [hlen]
  have e1 : body.length + 4 - 4 = body.length := by omega
  have e2 : body.length + 4 - 3 = body.length + 1 := by omega
  have e3 : body.length + 4 - 2 = body.length + 2 := by omega
  have e4 : body.length + 4 - 1 = body.length + 3 := by omega
  rw [e1, e2, e3, e4, List.take_left]
  rw [List.getD_append_right _ _ _ _ le_rfl,
    List.getD_append_right _ _ _ _ (by omega),
    List.getD_append_right _ _ _ _ (by omega),
    List.getD_append_right _ _ _ _ (by omega)]
  have f1 : body.length - body.length = 0 := by omega
  have f2 : body.length + 1 - body.length = 1 := by omega
  have f3 : body.length + 2 - body.length = 2 := by omega
  have f4 : body.length + 3 - body.length = 3 := by omega
  rw [f1, f2, f3, f4]
  simp only [List.getD, List.get?_cons_zero, List.get?_cons_succ,
    Option.getD_some]

lemma set_get_self (l : List Nat) (n : Nat) (h : n < l.length) :
    l.set n (l.get ⟨n, h⟩) = l := by
  apply List.ext_getElem
  · simp
  · intro i h1 h2
    by_cases hi : i = n
    · subst hi
      simp [List.getElem_set]
    · simp [List.getElem_set, show n ≠ i from fun hh => hi hh.symm]

lemma xor_bit_ne (x p : Nat) : x ^^^ 2 ^ (p % 8) ≠ x := by
  intro h
  have h2 := congrArg (fun z => x ^^^ z) h
  simp only [Nat.xor_cancel_left, Nat.xor_self] at h2
  have h3 := Nat.two_pow_pos (p % 8)
  omega

lemma xor_bit_lt (x p : Nat) (hx : x < 256) : x ^^^ 2 ^ (p % 8) < 256 := by
  have h1 : x < 2 ^ 8 := by omega
  have h2 : 2 ^ (p % 8) < 2 ^ 8 :=
    Nat.pow_lt_pow_right (by norm_num) (Nat.mod_lt _ (by norm_num))
  have h3 := Nat.xor_lt_two_pow h1 h2
  omega

lemma data_frame_body_bytes (F : DataFrame) (hwf : F.wf) :
    ∀ b ∈ data_frame_body F, b < 256 := by
  obtain ⟨h1, h2, h3, h4, h5, h6, h7, h8⟩ := hwf
  intro b hb
  unfold data_frame_body at hb
  simp only [List.cons_append, List.nil_append, List.mem_cons] at hb
  rcases hb with rfl | rfl | rfl | rfl | rfl | rfl | rfl | rfl | rfl | hb
  · omega
  · omega
  · omega
  · omega
  · omega
  · omega
  · omega
  · omega
  · omega
  · exact h8 b (List.take_subset _ _ hb)

lemma parse_none_of_validate_false (buf : List Nat)
    (hv : validate_crc32 buf = false) : parse_data_frame buf = none := by
  unfold parse_data_frame
  by_cases h13 : buf.length < 13
  · rw [if_pos h13]
  · rw [if_neg h13, if_pos hv]

end fs1052

namespace fs1052

lemma parse_format_roundtrip (F : DataFrame) (hwf : F.wf) :
    parse_data_frame (format_data_frame F) = some F := by
  obtain ⟨h1, h2, h3, h4, h5, h6, h7, h8⟩ := hwf
  have hdl : F.data.take F.data_length = F.data := by
    rw [h6]
    exact List.take_length F.data
  have hbody : data_frame_body F =
      [1 + F.data_rate_format * 128 + F.data_rate * 16,
       F.interleaver_length, F.sequence_number,
       F.msg_byte_offset / 2 ^ 24 % 256, F.msg_byte_offset / 2 ^ 16 % 256,
       F.msg_byte_offset / 2 ^ 8 % 256, F.msg_byte_offset % 256,
       F.data_length / 2 ^ 8 % 256, F.data_length % 256] ++ F.data := by
    unfold data_frame_body
    rw [hdl, Nat.mod_eq_of_lt h1, Nat.mod_eq_of_lt h2, Nat.mod_eq_of_lt h3,
      Nat.mod_eq_of_lt h4]
  have hblen : (data_frame_body F).length = 9 + F.data.length := by
    rw [hbody]
    simp
    omega
  have hform : format_data_frame F =
      data_frame_body F ++ crc32_bytes (calculate_crc32 (data_frame_body F)) :=
    rfl
  have hlen : (format_data_frame F).length = 13 + F.data.length := by
    rw [hform, List.length_append, hblen]
    show 9 + F.data.length + 4 = 13 + F.data.length
    omega
  have hval : validate_crc32 (format_data_frame F) = true :=
    validate_append_crc32 (data_frame_body F)
  have hgd : ∀ n, n < 9 → (format_data_frame F).getD n 0 =
      (data_frame_body F).getD n 0 := by
    intro n hn
    rw [hform]
    exact List.getD_append _ _ 0 n (by omega)
  have hg0 : (format_data_frame F).getD 0 0 =
      1 + F.data_rate_format * 128 + F.data_rate * 16 := by
    rw [hgd 0 (by omega), hbody]
    rfl
  have hg1 : (format_data_frame F).getD 1 0 = F.interleaver_length := by
    rw [hgd 1 (by omega), hbody]
    rfl
  have hg2 : (format_data_frame F).getD 2 0 = F.sequence_number := by
    rw [hgd 2 (by omega), hbody]
    rfl
  have hg3 : (format_data_frame F).getD 3 0 =
      F.msg_byte_offset / 2 ^ 24 % 256 := by
    rw [hgd 3 (by omega), hbody]
    rfl
  have hg4 : (format_data_frame F).getD 4 0 =
      F.msg_byte_offset / 2 ^ 16 % 256 := by
    rw [hgd 4 (by omega), hbody]
    rfl
  have hg5 : (format_data_frame F).getD 5 0 =
      F.msg_byte_offset / 2 ^ 8 % 256 := by
    rw [hgd 5 (by omega), hbody]
    rfl
  have hg6 : (format_data_frame F).getD 6 0 = F.msg_byte_offset % 256 := by
    rw [hgd 6 (by omega), hbody]
    rfl
  have hg7 : (format_data_frame F).getD 7 0 =
      F.data_length / 2 ^ 8 % 256 := by
    rw [hgd 7 (by omega), hbody]
    rfl
  have hg8 : (format_data_frame F).getD 8 0 = F.data_length % 256 := by
    rw [hgd 8 (by omega), hbody]
    rfl
  have hdrop : (format_data_frame F).drop 9 =
      F.data ++ crc32_bytes (calculate_crc32 (data_frame_body F)) := by
    rw [hform, hbody, List.append_assoc]
    rfl
  have hrec : F.data_length / 2 ^ 8 % 256 * 2 ^ 8 + F.data_length % 256 =
      F.data_length := by
    omega
  unfold parse_data_frame
  rw [if_neg (by omega)]
  rw [if_neg (by rw [hval]; simp)]
  simp only [hg0, hg1, hg2, hg3, hg4, hg5, hg6, hg7, hg8]
  rw [hrec, hlen]
  rw [if_neg (by omega)]
  rw [hdrop]
  have htake : (F.data ++
      crc32_bytes (calculate_crc32 (data_frame_body F))).take F.data_length =
      F.data := by
    rw [h6]
    exact List.take_left _ _
  rw [htake]
  have efmt : (1 + F.data_rate_format * 128 + F.data_rate * 16) / 2 ^ 7 % 2 =
      F.data_rate_format := by
    omega
  have erate : (1 + F.data_rate_format * 128 + F.data_rate * 16) / 2 ^ 4 % 8 =
      F.data_rate := by
    omega
  have eoff : F.msg_byte_offset / 2 ^ 24 % 256 * 2 ^ 24 +
      F.msg_byte_offset / 2 ^ 16 % 256 * 2 ^ 16 +
      F.msg_byte_offset / 2 ^ 8 % 256 * 2 ^ 8 + F.msg_byte_offset % 256 =
      F.msg_byte_offset := by
    omega
  rw [efmt, erate, eoff]

end fs1052

namespace fs1052

lemma parse_flip_none (F : DataFrame) (hwf : F.wf) (p : Nat)
    (hp : p < 8 * (format_data_frame F).length) :
    parse_data_frame (flip_bit (format_data_frame F) p) = none := by
  have hbytes := data_frame_body_bytes F hwf
  have hform : format_data_frame F =
      data_frame_body F ++ crc32_bytes (calculate_crc32 (data_frame_body F)) :=
    rfl
  have hclt := calculate_crc32_lt (data_frame_body F)
  have hlen4 : (format_data_frame F).length =
      (data_frame_body F).length + 4 := by
    rw [hform, List.length_append]
    rfl
  have hi : p / 8 < (format_data_frame F).length := by omega
  apply parse_none_of_validate_false
  by_cases hA : p / 8 < (data_frame_body F).length
  · -- the flipped bit lies in the CRC-covered body: the computed CRC moves
    have hgdi : (format_data_frame F).getD (p / 8) 0 =
        (data_frame_body F).getD (p / 8) 0 := by
      rw [hform]
      exact List.getD_append _ _ 0 _ hA
    have hgetd : (data_frame_body F).getD (p / 8) 0 =
        (data_frame_body F).get ⟨p / 8, hA⟩ := List.getD_eq_get _ _ hA
    have hflip : flip_bit (format_data_frame F) p =
        (data_frame_body F).set (p / 8)
          ((data_frame_body F).getD (p / 8) 0 ^^^ 2 ^ (p % 8)) ++
        crc32_bytes (calculate_crc32 (data_frame_body F)) := by
      unfold flip_bit
      rw [hgdi, hform, List.set_append_left _ _ hA]
    have hxlt : (data_frame_body F).getD (p / 8) 0 < 256 := by
      rw [hgetd]
      exact hbytes _ (List.getElem_mem hA)
    have hvlt : (data_frame_body F).getD (p / 8) 0 ^^^ 2 ^ (p % 8) < 256 :=
      xor_bit_lt _ p hxlt
    have hvne : (data_frame_body F).getD (p / 8) 0 ^^^ 2 ^ (p % 8) ≠
        (data_frame_body F).getD (p / 8) 0 := xor_bit_ne _ p
    have hsuf : ∀ b ∈ (data_frame_body F).drop (p / 8 + 1), b < 256 :=
      fun b hb => hbytes b (List.drop_subset _ _ hb)
    have hsetv : (data_frame_body F).set (p / 8)
        ((data_frame_body F).getD (p / 8) 0 ^^^ 2 ^ (p % 8)) =
        (data_frame_body F).take (p / 8) ++
          ((data_frame_body F).getD (p / 8) 0 ^^^ 2 ^ (p % 8)) ::
          (data_frame_body F).drop (p / 8 + 1) :=
      List.set_eq_take_cons_drop _ hA
    have hsplit : data_frame_body F =
        (data_frame_body F).take (p / 8) ++
          (data_frame_body F).getD (p / 8) 0 ::
          (data_frame_body F).drop (p / 8 + 1) := by
      conv_lhs => rw [← set_get_self (data_frame_body F) (p / 8) hA]
      rw [List.set_eq_take_cons_drop _ hA, hgetd]
    have hne : calculate_crc32 ((data_frame_body F).set (p / 8)
        ((data_frame_body F).getD (p / 8) 0 ^^^ 2 ^ (p % 8))) ≠
        calculate_crc32 (data_frame_body F) := by
      rw [hsetv]
      conv_rhs => rw [hsplit]
      exact calculate_crc32_ne _ _ _ _ hvlt hxlt hvne hsuf
    rw [hflip]
    rw [show crc32_bytes (calculate_crc32 (data_frame_body F)) =
        [calculate_crc32 (data_frame_body F) / 2 ^ 24 % 256,
         calculate_crc32 (data_frame_body F) / 2 ^ 16 % 256,
         calculate_crc32 (data_frame_body F) / 2 ^ 8 % 256,
         calculate_crc32 (data_frame_body F) % 256] from rfl,
      validate_crc32_eval, decide_eq_false_iff_not]
    intro hcontra
    exact hne (by omega)
  · -- the flipped bit lies in the CRC trailer: the received CRC moves
    have hBle : (data_frame_body F).length ≤ p / 8 := Nat.le_of_not_lt hA
    have hk : p / 8 - (data_frame_body F).length < 4 := by omega
    have hflip : flip_bit (format_data_frame F) p =
        data_frame_body F ++
          (crc32_bytes (calculate_crc32 (data_frame_body F))).set
            (p / 8 - (data_frame_body F).length)
            ((crc32_bytes (calculate_crc32 (data_frame_body F))).getD
              (p / 8 - (data_frame_body F).length) 0 ^^^ 2 ^ (p % 8)) := by
      unfold flip_bit
      rw [hform, List.getD_append_right _ _ _ _ hBle,
        List.set_append_right _ _ hBle]
    rw [hflip]
    obtain ⟨k, hk4, hkeq⟩ :
        ∃ k, k < 4 ∧ p / 8 - (data_frame_body F).length = k := ⟨_, hk, rfl⟩
    rw [hkeq]
    interval_cases k
    · rw [show (crc32_bytes (calculate_crc32 (data_frame_body F))).set 0
          ((crc32_bytes (calculate_crc32 (data_frame_body F))).getD 0 0 ^^^
            2 ^ (p % 8)) =
          [calculate_crc32 (data_frame_body F) / 2 ^ 24 % 256 ^^^ 2 ^ (p % 8),
           calculate_crc32 (data_frame_body F) / 2 ^ 16 % 256,
           calculate_crc32 (data_frame_body F) / 2 ^ 8 % 256,
           calculate_crc32 (data_frame_body F) % 256] from rfl,
        validate_crc32_eval, decide_eq_false_iff_not]
      intro hcontra
      have hne0 :=
        xor_bit_ne (calculate_crc32 (data_frame_body F) / 2 ^ 24 % 256) p
      have hlt0 :=
        xor_bit_lt (calculate_crc32 (data_frame_body F) / 2 ^ 24 % 256) p
          (by omega)
      omega
    · rw [show (crc32_bytes (calculate_crc32 (data_frame_body F))).set 1
          ((crc32_bytes (calculate_crc32 (data_frame_body F))).getD 1 0 ^^^
            2 ^ (p % 8)) =
          [calculate_crc32 (data_frame_body F) / 2 ^ 24 % 256,
           calculate_crc32 (data_frame_body F) / 2 ^ 16 % 256 ^^^ 2 ^ (p % 8),
           calculate_crc32 (data_frame_body F) / 2 ^ 8 % 256,
           calculate_crc32 (data_frame_body F) % 256] from rfl,
        validate_crc32_eval, decide_eq_false_iff_not]
      intro hcontra
      have hne0 :=
        xor_bit_ne (calculate_crc32 (data_frame_body F) / 2 ^ 16 % 256) p
      have hlt0 :=
        xor_bit_lt (calculate_crc32 (data_frame_body F) / 2 ^ 16 % 256) p
          (by omega)
      omega
    · rw [show (crc32_bytes (calculate_crc32 (data_frame_body F))).set 2
          ((crc32_bytes (calculate_crc32 (data_frame_body F))).getD 2 0 ^^^
            2 ^ (p % 8)) =
          [calculate_crc32 (data_frame_body F) / 2 ^ 24 % 256,
           calculate_crc32 (data_frame_body F) / 2 ^ 16 % 256,
           calculate_crc32 (data_frame_body F) / 2 ^ 8 % 256 ^^^ 2 ^ (p % 8),
           calculate_crc32 (data_frame_body F) % 256] from rfl,
        validate_crc32_eval, decide_eq_false_iff_not]
      intro hcontra
      have hne0 :=
        xor_bit_ne (calculate_crc32 (data_frame_body F) / 2 ^ 8 % 256) p
      have hlt0 :=
        xor_bit_lt (calculate_crc32 (data_frame_body F) / 2 ^ 8 % 256) p
          (by omega)
      omega
    · rw [show (crc32_bytes (calculate_crc32 (data_frame_body F))).set 3
          ((crc32_bytes (calculate_crc32 (data_frame_body F))).getD 3 0 ^^^
            2 ^ (p % 8)) =
          [calculate_crc32 (data_frame_body F) / 2 ^ 24 % 256,
           calculate_crc32 (data_frame_body F) / 2 ^ 16 % 256,
           calculate_crc32 (data_frame_body F) / 2 ^ 8 % 256,
           calculate_crc32 (data_frame_body F) % 256 ^^^ 2 ^ (p % 8)] from
          rfl,
        validate_crc32_eval, decide_eq_false_iff_not]
      intro hcontra
      have hne0 := xor_bit_ne (calculate_crc32 (data_frame_body F) % 256) p
      have hlt0 :=
        xor_bit_lt (calculate_crc32 (data_frame_body F) % 256) p (by omega)
      omega

end fs1052

/-- C2: for every well-formed FS-1052 data frame (data_rate in 0..7,
data_length at most 1023 and matching the payload, byte-sized fields),
`parse_data_frame` applied to the buffer produced by `format_data_frame`
recovers the frame exactly in all wire-carried fields, and flipping any
single bit of that buffer makes `parse_data_frame` reject it (the CRC-32
check fails). -/
theorem c2_frame_roundtrip_and_bit_flip (F : fs1052.DataFrame)
    (hwf : F.wf) :
    fs1052.parse_data_frame (fs1052.format_data_frame F) = some F ∧
    ∀ p, p < 8 * (fs1052.format_data_frame F).length →
      fs1052.parse_data_frame
        (fs1052.flip_bit (fs1052.format_data_frame F) p) = none :=
  ⟨fs1052.parse_format_roundtrip F hwf,
   fun p hp => fs1052.parse_flip_none F hwf p hp⟩

/-- C2 witness: a concrete two-byte frame round-trips and is rejected after
flipping bit 40 of its 15-byte wire image. -/
theorem c2_witness :
    fs1052.DataFrame.wf ⟨1, 3, 0, 7, 258, 2, [10, 20]⟩ ∧
    fs1052.parse_data_frame
      (fs1052.format_data_frame ⟨1, 3, 0, 7, 258, 2, [10, 20]⟩) =
      some ⟨1, 3, 0, 7, 258, 2, [10, 20]⟩ ∧
    fs1052.parse_data_frame
      (fs1052.flip_bit
        (fs1052.format_data_frame ⟨1, 3, 0, 7, 258, 2, [10, 20]⟩) 40) =
      none :=
  ⟨by decide,
   (c2_frame_roundtrip_and_bit_flip ⟨1, 3, 0, 7, 258, 2, [10, 20]⟩
     (by decide)).1,
   (c2_frame_roundtrip_and_bit_flip ⟨1, 3, 0, 7, 258, 2, [10, 20]⟩
     (by decide)).2 40 (by decide)⟩
